import Mathlib

/-!
Verification of the `State` façade of the revm database crate
(`crates/database/src/states/state.rs`) against its specification.

The façade code under `src/` is translated directly into Lean below.  The
collaborating layers it calls (`CacheState`, `CacheAccount`, `TransitionState`,
`BundleState` and their operations) are part of this repository but are not
included under `src/`; every definition standing in for such code carries a
doc comment starting with `Modelled from the spec:` and follows the
specification's own description of that operation (sections 3, 4.2, 4.3, 4.4
and 4.6).  The spec-modelled bundle/transition layer is validated against the
concrete unit tests that ship inside `state.rs` (see the validation theorems
near the end of the file).

Machine integers (`u64`, `u128`, `U256`, addresses, hashes, storage keys and
values) are modelled as `Nat`; none of the verified claims depends on
wrap-around behaviour.  Hash maps keyed by addresses or storage keys are
modelled as `Nat → Option _` when the code only ever looks keys up, and as
association lists (`List (Nat × _)`) when the code iterates over the entries.
Fallible database calls return `Except E _`, mirroring `Result<_, E>`.
-/

/-- Constant from the spec (§6): `keccak256` of the empty byte string, as a
natural number.  The empty-account predicate uses this exact constant. -/
def EMPTY_KECCAK : Nat :=
  0xc5d2460186f7233c927e7db2dcc703c0e500b653ca82273b7bfad8045d85a470

/-- Constant `BLOCK_HASH_HISTORY = 256` (spec §6, used by `State::block_hash`). -/
def BLOCK_HASH_HISTORY : Nat := 256

/-- Account information: balance, nonce, code hash and optional bytecode
(spec §3 `AccountInfo`; bytecode is abstracted to a `Nat`). -/
structure AccountInfo where
  balance : Nat
  nonce : Nat
  code_hash : Nat
  code : Option Nat
deriving DecidableEq, Repr

/-- Empty-account predicate (spec §3): balance = 0, nonce = 0 and
code hash = `EMPTY_KECCAK`. -/
def AccountInfo.is_empty (a : AccountInfo) : Bool :=
  a.balance == 0 && a.nonce == 0 && a.code_hash == EMPTY_KECCAK

/-- The canonical empty account info value. -/
def AccountInfo.emptyInfo : AccountInfo :=
  { balance := 0, nonce := 0, code_hash := EMPTY_KECCAK, code := none }

/-- The nine-variant account status machine of the spec (§3). -/
inductive AccountStatus where
  | LoadedNotExisting
  | Loaded
  | LoadedEmptyEIP161
  | InMemoryChange
  | Changed
  | Destroyed
  | DestroyedChanged
  | DestroyedAgain
deriving DecidableEq, Repr

/-- Modelled from the spec: `is_storage_known(status)` (§3 invariant 2 and
§4.1) is true for every status except `Loaded`, `Changed` and
`LoadedEmptyEIP161`. -/
def AccountStatus.is_storage_known : AccountStatus → Bool
  | .Loaded => false
  | .Changed => false
  | .LoadedEmptyEIP161 => false
  | _ => true

/-- Modelled from the spec: status after a self-destruct in this block
(§4.2 account-update rule 1). -/
def AccountStatus.on_selfdestruct : AccountStatus → AccountStatus
  | .DestroyedChanged => .DestroyedAgain
  | .Destroyed => .DestroyedAgain
  | .DestroyedAgain => .DestroyedAgain
  | _ => .Destroyed

/-- Modelled from the spec: status after a creation in this transaction
(§4.2 account-update rule 2). -/
def AccountStatus.on_create : AccountStatus → AccountStatus
  | .Destroyed => .DestroyedChanged
  | .DestroyedAgain => .DestroyedChanged
  | .DestroyedChanged => .DestroyedChanged
  | _ => .InMemoryChange

/-- Modelled from the spec: status after a plain modification
(§4.2 account-update rule 3). -/
def AccountStatus.on_change : AccountStatus → AccountStatus
  | .Loaded => .Changed
  | .Changed => .Changed
  | .Destroyed => .DestroyedChanged
  | .DestroyedChanged => .DestroyedChanged
  | .DestroyedAgain => .DestroyedChanged
  | _ => .InMemoryChange

/-- Plain account data held in the cache: info plus the slots cached so far
(spec §3 `PlainAccount`; absent key = slot not cached). -/
structure PlainAccount where
  info : AccountInfo
  storage : Nat → Option Nat

/-- Cached account: optional plain data plus status (spec §3 `CacheAccount`). -/
structure CacheAccount where
  account : Option PlainAccount
  status : AccountStatus

/-- Modelled from the spec: constructor `new_loaded_not_existing` (§4.1). -/
def CacheAccount.new_loaded_not_existing : CacheAccount :=
  { account := none, status := .LoadedNotExisting }

/-- Modelled from the spec: constructor `new_loaded` (§4.1). -/
def CacheAccount.new_loaded (info : AccountInfo) (storage : Nat → Option Nat) :
    CacheAccount :=
  { account := some { info := info, storage := storage }, status := .Loaded }

/-- Modelled from the spec: constructor `new_loaded_empty_eip161` (§4.1):
a present-but-empty account. -/
def CacheAccount.new_loaded_empty_eip161 (storage : Nat → Option Nat) :
    CacheAccount :=
  { account := some { info := AccountInfo.emptyInfo, storage := storage },
    status := .LoadedEmptyEIP161 }

/-- Modelled from the spec: `account_info()` projects the optional
`AccountInfo` out of a cached account (used by `State::basic`). -/
def CacheAccount.account_info (ca : CacheAccount) : Option AccountInfo :=
  ca.account.map (·.info)

/-- A storage slot diff: value at block start and current value
(spec §3 `StorageSlot`). -/
structure StorageSlot where
  original_value : Nat
  present_value : Nat
deriving DecidableEq, Repr

/-- Association-list lookup keyed by `Nat`; the first matching entry wins,
mirroring a hash map with unique keys. -/
def alookup {α : Type} : List (Nat × α) → Nat → Option α
  | [], _ => none
  | (k, v) :: rest, key => if key = k then some v else alookup rest key

/-- One transaction's effect on one account (spec §3 `TransitionAccount`). -/
structure TransitionAccount where
  status : AccountStatus
  info : Option AccountInfo
  previous_status : AccountStatus
  previous_info : Option AccountInfo
  storage : List (Nat × StorageSlot)
  storage_was_destroyed : Bool
deriving DecidableEq, Repr

/-- Modelled from the spec: composition of two transitions for the same
address within one block (§4.3).  `previous_*` comes from the older entry,
`status`/`info` from the newer one; for each storage key the present value
is the newer one and the original value is the older entry's original when
the older entry has the key; if the newer transition destroyed the storage,
the older slots are discarded. -/
def TransitionAccount.compose (t1 t2 : TransitionAccount) : TransitionAccount :=
  { status := t2.status
    info := t2.info
    previous_status := t1.previous_status
    previous_info := t1.previous_info
    storage :=
      if t2.storage_was_destroyed then t2.storage
      else
        t1.storage.map (fun p =>
          (p.1, match alookup t2.storage p.1 with
            | some s2 => { original_value := p.2.original_value,
                           present_value := s2.present_value }
            | none => p.2)) ++
        t2.storage.filter (fun p => (alookup t1.storage p.1).isNone)
    storage_was_destroyed := t1.storage_was_destroyed || t2.storage_was_destroyed }

/-- The per-block transition buffer (spec §3 `TransitionState`), as an
association list in insertion order with unique addresses. -/
abbrev TransitionState : Type := List (Nat × TransitionAccount)

/-- Modelled from the spec: inserting one transition into the buffer; on
collision with an existing transition for the same address the two are
composed (§4.3). -/
def TransitionState.insertTransition :
    TransitionState → Nat × TransitionAccount → TransitionState
  | [], (a, t) => [(a, t)]
  | (b, u) :: rest, (a, t) =>
    if b = a then (b, u.compose t) :: rest
    else (b, u) :: TransitionState.insertTransition rest (a, t)

/-- Modelled from the spec: `add_transitions` inserts each entry in order
(§4.3). -/
def TransitionState.addTransitions
    (ts : TransitionState) (l : List (Nat × TransitionAccount)) : TransitionState :=
  l.foldl TransitionState.insertTransition ts

/-- Slot revert record (spec §3 `RevertToSlot`): restore a value, or wipe
the slot. -/
inductive RevertToSlot where
  | Some : Nat → RevertToSlot
  | Destroyed : RevertToSlot
deriving DecidableEq, Repr

/-- Account-info revert record (spec §3 `AccountInfoRevert`). -/
inductive AccountInfoRevert where
  | DoNothing : AccountInfoRevert
  | DeleteIt : AccountInfoRevert
  | RevertTo : AccountInfo → AccountInfoRevert
deriving DecidableEq, Repr

/-- Per-account revert record (spec §3 `AccountRevert`). -/
structure AccountRevert where
  account : AccountInfoRevert
  previous_status : AccountStatus
  storage : List (Nat × RevertToSlot)
  wipe_storage : Bool
deriving DecidableEq, Repr

/-- Per-address bundle entry (spec §3 `BundleAccount`). -/
structure BundleAccount where
  info : Option AccountInfo
  original_info : Option AccountInfo
  storage : List (Nat × StorageSlot)
  status : AccountStatus
deriving DecidableEq, Repr

/-- Modelled from the spec: `BundleAccount::account_info` projects the
present info (used by the read-only façade operations). -/
def BundleAccount.account_info (b : BundleAccount) : Option AccountInfo :=
  b.info

/-- The durable bundle (spec §3 `BundleState`): per-address entries, the
deduplicated contracts table and the per-block revert sets in merge order.
The size hints are bookkeeping omitted here (no verified claim mentions
them). -/
structure BundleState where
  state : Nat → Option BundleAccount
  contracts : Nat → Option Nat
  reverts : List (List (Nat × AccountRevert))

/-- The empty bundle. -/
def BundleState.empty : BundleState :=
  { state := fun _ => none, contracts := fun _ => none, reverts := [] }

/-- Lookup of a bundle entry (`BundleState::account`). -/
def BundleState.account (bs : BundleState) (a : Nat) : Option BundleAccount :=
  bs.state a

/-- Transition retention modes (spec §4.3); `state.rs` uses `Reverts`. -/
inductive BundleRetention where
  | Reverts
  | PlainState
deriving DecidableEq, Repr

/-- Modelled from the spec: merging a transition's storage into the existing
bundle storage, present values winning while bundle slots keep their
captured originals (§4.4 step (e)). -/
def mergeBundleStorage (old ts : List (Nat × StorageSlot)) :
    List (Nat × StorageSlot) :=
  old.map (fun p =>
    (p.1, match alookup ts p.1 with
      | some s2 => { original_value := p.2.original_value,
                     present_value := s2.present_value }
      | none => p.2)) ++
  ts.filter (fun p => (alookup old p.1).isNone)

/-- True when every recorded slot of a transition left its value unchanged
(original = present). -/
def storageUnchanged (l : List (Nat × StorageSlot)) : Bool :=
  l.all (fun p => p.2.original_value == p.2.present_value)

/-- Modelled from the spec: processing one drained transition against the
existing bundle entry (§4.4 steps (a)-(f)).  Returns the updated entry and
the revert record, or `none` when the bundle-scoped collapse rule (f)
applies (the account's info equals its captured original, every recorded
slot is unchanged and the storage was not wiped). -/
def updateAndCreateRevert (b? : Option BundleAccount) (t : TransitionAccount) :
    BundleAccount × Option AccountRevert :=
  let wipe := t.storage_was_destroyed
  let infoRevert : AccountInfoRevert :=
    if t.previous_status = .LoadedNotExisting then .DeleteIt
    else
      match t.previous_info with
      | none => .DeleteIt
      | some pi =>
        let freshOriginal : Bool :=
          match b? with
          | none => true
          | some b =>
            match b.original_info with
            | none => true
            | some oi => oi == pi
        if freshOriginal then
          if t.info = some pi then .DoNothing else .RevertTo pi
        else .DoNothing
  let slotReverts : List (Nat × RevertToSlot) :=
    t.storage.map (fun p =>
      (p.1, if wipe then RevertToSlot.Destroyed
            else RevertToSlot.Some p.2.original_value))
  let oldStorage : List (Nat × StorageSlot) :=
    if wipe then []
    else match b? with
      | some b => b.storage
      | none => []
  let newOriginal : Option AccountInfo :=
    match b? with
    | none => t.previous_info
    | some b =>
      match b.original_info with
      | some oi => some oi
      | none => t.previous_info
  let merged : BundleAccount :=
    { info := t.info
      original_info := newOriginal
      storage := mergeBundleStorage oldStorage t.storage
      status := t.status }
  let collapse : Bool :=
    decide (merged.info = merged.original_info) && storageUnchanged t.storage && !wipe
  (merged,
   if collapse then none
   else some { account := infoRevert, previous_status := t.previous_status,
               storage := slotReverts, wipe_storage := wipe })

/-- One step of the merge fold: update the bundle entry of one drained
transition and append its revert record, if any. -/
def mergeStep
    (acc : (Nat → Option BundleAccount) × List (Nat × AccountRevert))
    (p : Nat × TransitionAccount) :
    (Nat → Option BundleAccount) × List (Nat × AccountRevert) :=
  let res := updateAndCreateRevert (acc.1 p.1) p.2
  (fun x => if x = p.1 then some res.1 else acc.1 x,
   match res.2 with
   | some r => acc.2 ++ [(p.1, r)]
   | none => acc.2)

/-- Modelled from the spec: `apply_transitions_and_create_reverts` (§4.4).
Each drained transition updates its bundle entry; with retention `Reverts`
the per-address revert records of this merge are appended as one new block
in order. -/
def BundleState.applyTransitionsAndCreateReverts
    (bs : BundleState) (ts : TransitionState) (retention : BundleRetention) :
    BundleState :=
  let folded := ts.foldl mergeStep (bs.state, [])
  { bs with
    state := folded.1
    reverts :=
      if retention = .Reverts then bs.reverts ++ [folded.2] else bs.reverts }

/-- The external database contract (spec §6): four fallible operations with
one error type.  The read-only `DatabaseRef` mirror of the Rust code is
served by the same four functions. -/
structure DB (E : Type) where
  basic : Nat → Except E (Option AccountInfo)
  code_by_hash : Nat → Except E Nat
  storage : Nat → Nat → Except E Nat
  block_hash : Nat → Except E Nat

/-- The cache layer (spec §3/§4.2 `CacheState`): accounts, contracts and the
EIP-161 state-clear flag. -/
structure CacheState where
  accounts : Nat → Option CacheAccount
  contracts : Nat → Option Nat
  has_state_clear : Bool

/-- The empty cache with state clear enabled (the builder default). -/
def CacheState.empty : CacheState :=
  { accounts := fun _ => none, contracts := fun _ => none, has_state_clear := true }

/-- The VM's post-transaction view of one account (spec §6 VM contract):
info, storage diff and the touched/created/selfdestructed flags. -/
structure EvmAccount where
  info : AccountInfo
  storage : List (Nat × StorageSlot)
  touched : Bool
  created : Bool
  selfdestructed : Bool

/-- Modelled from the spec: folding one touched VM account into the cache
(§4.2 account-update rules 1-4), producing the transition record. -/
def CacheState.applyEvmAccount (c : CacheState) (a : Nat) (acc : EvmAccount) :
    CacheState × List (Nat × TransitionAccount) :=
  if acc.touched = false then (c, [])
  else
    let prev := (c.accounts a).getD CacheAccount.new_loaded_not_existing
    let prevInfo := prev.account_info
    let setAcc := fun (ca : CacheAccount) =>
      { c with accounts := fun x => if x = a then some ca else c.accounts x }
    if acc.selfdestructed then
      let st := prev.status.on_selfdestruct
      (setAcc { account := none, status := st },
       [(a, { status := st, info := none, previous_status := prev.status,
              previous_info := prevInfo, storage := [],
              storage_was_destroyed := true })])
    else if c.has_state_clear && acc.info.is_empty then
      (setAcc { account := none, status := .Destroyed },
       [(a, { status := .Destroyed, info := none, previous_status := prev.status,
              previous_info := prevInfo, storage := [],
              storage_was_destroyed := false })])
    else
      let changedSlots := acc.storage.filter
        (fun p => p.2.original_value != p.2.present_value)
      if acc.created then
        let st := prev.status.on_create
        let newStorage : Nat → Option Nat :=
          fun k => (alookup acc.storage k).map (·.present_value)
        (setAcc { account := some { info := acc.info, storage := newStorage },
                  status := st },
         [(a, { status := st, info := some acc.info,
                previous_status := prev.status, previous_info := prevInfo,
                storage := changedSlots, storage_was_destroyed := false })])
      else
        let st := prev.status.on_change
        let base : Nat → Option Nat :=
          match prev.account with
          | some pa => pa.storage
          | none => fun _ => none
        let newStorage : Nat → Option Nat :=
          fun k =>
            match alookup acc.storage k with
            | some sl => some sl.present_value
            | none => base k
        (setAcc { account := some { info := acc.info, storage := newStorage },
                  status := st },
         [(a, { status := st, info := some acc.info,
                previous_status := prev.status, previous_info := prevInfo,
                storage := changedSlots, storage_was_destroyed := false })])

/-- Modelled from the spec: `apply_evm_state` folds the whole VM post-state
into the cache (§4.2), collecting one transition per touched account. -/
def CacheState.applyEvmState (c : CacheState) (evm : List (Nat × EvmAccount)) :
    CacheState × List (Nat × TransitionAccount) :=
  evm.foldl
    (fun (acc : CacheState × List (Nat × TransitionAccount)) p =>
      let res := acc.1.applyEvmAccount p.1 p.2
      (res.1, acc.2 ++ res.2))
    (c, [])

/-- The `State` façade (`state.rs` lines 29-66): cache, database, optional
transition buffer, bundle, preloaded-bundle flag and the block-hash window. -/
structure State (E : Type) where
  cache : CacheState
  database : DB E
  transition_state : Option TransitionState
  bundle_state : BundleState
  use_preloaded_bundle : Bool
  block_hashes : Nat → Option Nat

/-- Modelled from the spec: the builder configured with `with_bundle_update`
(§4.6): empty cache, an allocated empty transition buffer, empty bundle, no
preloaded bundle, empty block-hash window. -/
def State.buildFresh {E : Type} (db : DB E) : State E :=
  { cache := CacheState.empty
    database := db
    transition_state := some ([] : TransitionState)
    bundle_state := BundleState.empty
    use_preloaded_bundle := false
    block_hashes := fun _ => none }

/-- Helper writing one cache entry (the `entry.insert` of the Rust code). -/
def insertCacheAccount {E : Type} (s : State E) (a : Nat) (ca : CacheAccount) :
    State E :=
  { s with cache :=
      { s.cache with accounts := fun x => if x = a then some ca else s.cache.accounts x } }

/-- Modelled from the spec: conversion of a preloaded bundle account into a
cache entry (the `Into<CacheAccount>` impl used by `load_cache_account` lives
outside `src/`): the bundle's present info and present storage values under
the bundle's status. -/
def BundleAccount.intoCacheAccount (b : BundleAccount) : CacheAccount :=
  { account := b.info.map (fun i =>
      { info := i, storage := fun k => (alookup b.storage k).map (·.present_value) })
    status := b.status }

/-- `State::load_cache_account` (`state.rs` lines 189-211): on a cache miss
consult the preloaded bundle when enabled, else the database, mapping the
database outcome None to `LoadedNotExisting`, Some(empty) to
`LoadedEmptyEIP161` and Some(non-empty) to `Loaded`.  The third component
counts the `database.basic` invocations performed by the call. -/
def State.load_cache_account {E : Type} (s : State E) (a : Nat) :
    Except E CacheAccount × State E × Nat :=
  match s.cache.accounts a with
  | some ca => (.ok ca, s, 0)
  | none =>
    match (if s.use_preloaded_bundle then s.bundle_state.account a else none) with
    | some b =>
      (.ok b.intoCacheAccount, insertCacheAccount s a b.intoCacheAccount, 0)
    | none =>
      match s.database.basic a with
      | .error e => (.error e, s, 1)
      | .ok none =>
        (.ok CacheAccount.new_loaded_not_existing,
         insertCacheAccount s a CacheAccount.new_loaded_not_existing, 1)
      | .ok (some info) =>
        if info.is_empty then
          (.ok (CacheAccount.new_loaded_empty_eip161 (fun _ => none)),
           insertCacheAccount s a (CacheAccount.new_loaded_empty_eip161 (fun _ => none)), 1)
        else
          (.ok (CacheAccount.new_loaded info (fun _ => none)),
           insertCacheAccount s a (CacheAccount.new_loaded info (fun _ => none)), 1)

/-- `Database::basic` for `State` (`state.rs` lines 232-234): load the cache
account and project its info.  The third component counts `database.basic`
invocations. -/
def State.basic {E : Type} (s : State E) (a : Nat) :
    Except E (Option AccountInfo) × State E × Nat :=
  match s.load_cache_account a with
  | (.ok ca, s', n) => (.ok ca.account_info, s', n)
  | (.error e, s', n) => (.error e, s', n)

/-- `Database::code_by_hash` for `State` (`state.rs` lines 236-253). -/
def State.code_by_hash {E : Type} (s : State E) (h : Nat) :
    Except E Nat × State E :=
  match s.cache.contracts h with
  | some code => (.ok code, s)
  | none =>
    match (if s.use_preloaded_bundle then s.bundle_state.contracts h else none) with
    | some code =>
      (.ok code,
       { s with cache := { s.cache with
           contracts := fun x => if x = h then some code else s.cache.contracts x } })
    | none =>
      match s.database.code_by_hash h with
      | .error e => (.error e, s)
      | .ok code =>
        (.ok code,
         { s with cache := { s.cache with
             contracts := fun x => if x = h then some code else s.cache.contracts x } })

/-- Outcome of an operation that may hit a programmer-error trap
(`unreachable!` in the Rust code): either the trap, or a result. -/
inductive TrapOr (α : Type) where
  | trap : TrapOr α
  | res : α → TrapOr α

/-- `Database::storage` for `State` (`state.rs` lines 255-287): traps when
the address was never loaded; returns ZERO when the cached account has no
plain data; otherwise serves the cached slot, or ZERO without a database
call when `is_storage_known(status)`, or the database value which is then
cached.  The `Nat` component counts `database.storage` invocations. -/
def State.storage {E : Type} (s : State E) (a k : Nat) :
    TrapOr (Except E Nat × State E × Nat) :=
  match s.cache.accounts a with
  | none => .trap
  | some ca =>
    match ca.account with
    | none => .res (.ok 0, s, 0)
    | some pa =>
      match pa.storage k with
      | some v => .res (.ok v, s, 0)
      | none =>
        if ca.status.is_storage_known then
          .res (.ok 0,
            insertCacheAccount s a
              { ca with account :=
                  (some { pa with storage := fun x => if x = k then some 0 else pa.storage x }) },
            0)
        else
          match s.database.storage a k with
          | .error e => .res (.error e, s, 1)
          | .ok v =>
            .res (.ok v,
              insertCacheAccount s a
                { ca with account :=
                    (some { pa with storage := fun x => if x = k then some v else pa.storage x }) },
              1)

/-- `Database::block_hash` for `State` (`state.rs` lines 289-308): serve a
cached hash, else query the database, insert, and prune every key below
`number - BLOCK_HASH_HISTORY` (the Rust loop walks the ordered map from its
smallest key and stops at the first key inside the window, which removes
exactly the keys below the bound; `Nat` subtraction is the saturating
subtraction the code uses). -/
def State.block_hash {E : Type} (s : State E) (number : Nat) :
    Except E Nat × State E :=
  match s.block_hashes number with
  | some h => (.ok h, s)
  | none =>
    match s.database.block_hash number with
    | .error e => (.error e, s)
    | .ok h =>
      let inserted : Nat → Option Nat :=
        fun x => if x = number then some h else s.block_hashes x
      let last_block := number - BLOCK_HASH_HISTORY
      (.ok h,
       { s with block_hashes := fun x => if x < last_block then none else inserted x })

/-- `State::apply_transition` (`state.rs` lines 166-171): push transitions
into the buffer when it exists, otherwise do nothing. -/
def State.applyTransition {E : Type} (s : State E)
    (l : List (Nat × TransitionAccount)) : State E :=
  match s.transition_state with
  | some ts => { s with transition_state := some (ts.addTransitions l) }
  | none => s

/-- `State::merge_transitions` (`state.rs` lines 178-183): drain the buffer
(when present) into the bundle. -/
def State.mergeTransitions {E : Type} (s : State E) (retention : BundleRetention) :
    State E :=
  match s.transition_state with
  | some ts =>
    { s with
      transition_state := some ([] : TransitionState)
      bundle_state := s.bundle_state.applyTransitionsAndCreateReverts ts retention }
  | none => s

/-- `DatabaseCommit::commit` for `State` (`state.rs` lines 311-316): fold
the VM post-state into the cache, then push the produced transitions. -/
def State.commit {E : Type} (s : State E) (evm : List (Nat × EvmAccount)) : State E :=
  let res := s.cache.applyEvmState evm
  ({ s with cache := res.1 }).applyTransition res.2

/-- Modelled from the spec: `CacheAccount::increment_balance` (§4.5
auxiliary operations: load account, add, emit transition).  The status
advances by the plain-modification rule; an absent account is materialised
as an empty account holding the added balance.  The spec does not state an
overflow discipline, so the addition is on unbounded naturals. -/
def CacheAccount.incrementBalance (ca : CacheAccount) (amt : Nat) :
    CacheAccount × TransitionAccount :=
  let prevInfo := ca.account_info
  let newInfo : AccountInfo :=
    match prevInfo with
    | some i => { i with balance := i.balance + amt }
    | none => { AccountInfo.emptyInfo with balance := amt }
  let prevStorage : Nat → Option Nat :=
    match ca.account with
    | some pa => pa.storage
    | none => fun _ => none
  let st := ca.status.on_change
  ({ account := some { info := newInfo, storage := prevStorage }, status := st },
   { status := st, info := some newInfo, previous_status := ca.status,
     previous_info := prevInfo, storage := [], storage_was_destroyed := false })

/-- Modelled from the spec: `CacheAccount::drain_balance` (§4.5: load, set
balance to zero, emit transition, return the taken balance). -/
def CacheAccount.drainBalance (ca : CacheAccount) :
    Nat × CacheAccount × TransitionAccount :=
  let prevInfo := ca.account_info
  let taken :=
    match prevInfo with
    | some i => i.balance
    | none => 0
  let newInfo : AccountInfo :=
    match prevInfo with
    | some i => { i with balance := 0 }
    | none => AccountInfo.emptyInfo
  let prevStorage : Nat → Option Nat :=
    match ca.account with
    | some pa => pa.storage
    | none => fun _ => none
  let st := ca.status.on_change
  (taken,
   { account := some { info := newInfo, storage := prevStorage }, status := st },
   { status := st, info := some newInfo, previous_status := ca.status,
     previous_info := prevInfo, storage := [], storage_was_destroyed := false })

/-- Iteration core of `State::increment_balances` (`state.rs` lines 91-108):
zero amounts are skipped; every non-zero amount loads the account, adds the
amount and records one transition.  On a database error the error is
returned at once: the transitions gathered so far are dropped but cache
updates of earlier iterations persist, as in the Rust code. -/
def State.incBalGo {E : Type} (s : State E) :
    List (Nat × Nat) → Except E Unit × List (Nat × TransitionAccount) × State E
  | [] => (.ok (), [], s)
  | (a, amt) :: rest =>
    if amt = 0 then s.incBalGo rest
    else
      match s.load_cache_account a with
      | (.error e, s', _) => (.error e, [], s')
      | (.ok ca, s', _) =>
        let res := ca.incrementBalance amt
        let s'' := insertCacheAccount s' a res.1
        let tail := s''.incBalGo rest
        (tail.1, (a, res.2) :: tail.2.1, tail.2.2)

/-- `State::increment_balances` (`state.rs` lines 91-114): run the iteration
and, on success, append the gathered transitions to the buffer when it
exists. -/
def State.incrementBalances {E : Type} (s : State E) (balances : List (Nat × Nat)) :
    Except E Unit × State E :=
  let run := s.incBalGo balances
  match run.1 with
  | .error e => (.error e, run.2.2)
  | .ok _ =>
    let s' := run.2.2
    match s'.transition_state with
    | some ts =>
      (.ok (), { s' with transition_state := some (ts.addTransitions run.2.1) })
    | none => (.ok (), s')

/-- Iteration core of `State::drain_balances` (`state.rs` lines 119-131):
every address is loaded, its balance taken, and one transition recorded. -/
def State.drainGo {E : Type} (s : State E) :
    List Nat → Except E Unit × List Nat × List (Nat × TransitionAccount) × State E
  | [] => (.ok (), [], [], s)
  | a :: rest =>
    match s.load_cache_account a with
    | (.error e, s', _) => (.error e, [], [], s')
    | (.ok ca, s', _) =>
      let res := ca.drainBalance
      let s'' := insertCacheAccount s' a res.2.1
      let tail := s''.drainGo rest
      (tail.1, res.1 :: tail.2.1, (a, res.2.2) :: tail.2.2.1, tail.2.2.2)

/-- `State::drain_balances` (`state.rs` lines 119-137). -/
def State.drainBalances {E : Type} (s : State E) (addresses : List Nat) :
    Except E (List Nat) × State E :=
  let run := s.drainGo addresses
  match run.1 with
  | .error e => (.error e, run.2.2.2)
  | .ok _ =>
    let s' := run.2.2.2
    match s'.transition_state with
    | some ts =>
      (.ok run.2.1, { s' with transition_state := some (ts.addTransitions run.2.2.1) })
    | none => (.ok run.2.1, s')

/-- `DatabaseRef::basic_ref` for `State` (`state.rs` lines 321-334),
threaded in state-passing style: the `&self` receiver of the Rust code
cannot be mutated, so every branch returns the state unchanged. -/
def State.basic_ref {E : Type} (s : State E) (a : Nat) :
    Except E (Option AccountInfo) × State E :=
  match s.cache.accounts a with
  | some ca => (.ok ca.account_info, s)
  | none =>
    match (if s.use_preloaded_bundle then s.bundle_state.account a else none) with
    | some b => (.ok b.account_info, s)
    | none => (s.database.basic a, s)

/-- `DatabaseRef::code_by_hash_ref` for `State` (`state.rs` lines 336-349). -/
def State.code_by_hash_ref {E : Type} (s : State E) (h : Nat) :
    Except E Nat × State E :=
  match s.cache.contracts h with
  | some code => (.ok code, s)
  | none =>
    match (if s.use_preloaded_bundle then s.bundle_state.contracts h else none) with
    | some code => (.ok code, s)
    | none => (s.database.code_by_hash h, s)

/-- `DatabaseRef::storage_ref` for `State` (`state.rs` lines 351-372): a
cached slot or known storage short-circuits; anything else (including an
account that was never loaded) falls through to the database. -/
def State.storage_ref {E : Type} (s : State E) (a k : Nat) :
    Except E Nat × State E :=
  match s.cache.accounts a with
  | some ca =>
    match ca.account with
    | some pa =>
      match pa.storage k with
      | some v => (.ok v, s)
      | none =>
        if ca.status.is_storage_known then (.ok 0, s)
        else (s.database.storage a k, s)
    | none => (s.database.storage a k, s)
  | none => (s.database.storage a k, s)

/-- `DatabaseRef::block_hash_ref` for `State` (`state.rs` lines 374-380). -/
def State.block_hash_ref {E : Type} (s : State E) (number : Nat) :
    Except E Nat × State E :=
  match s.block_hashes number with
  | some h => (.ok h, s)
  | none => (s.database.block_hash number, s)

/-! ### Logical account model used to state the revert round-trip -/

/-- The logical (VM-visible) state of one account at a point inside a block:
its status, optional info, and the full storage valuation (absent slots read
as their backing value). -/
@[ext]
structure LogicalAccount where
  status : AccountStatus
  info : Option AccountInfo
  store : Nat → Nat

/-- A transition truthfully records one step from the logical account state
sigma: its `previous_*` fields name the state it starts from, and every
recorded slot's original value is the value that slot actually had (zero
when the transition itself wiped the storage first). -/
def stepOk (sigma : LogicalAccount) (t : TransitionAccount) : Prop :=
  t.previous_status = sigma.status ∧ t.previous_info = sigma.info ∧
  ∀ k s, alookup t.storage k = some s →
    s.original_value = (if t.storage_was_destroyed then 0 else sigma.store k)

/-- The logical account state after a transition: recorded slots take their
present value, unrecorded slots keep their old value unless the transition
wiped the storage. -/
def applyStep (sigma : LogicalAccount) (t : TransitionAccount) : LogicalAccount :=
  { status := t.status
    info := t.info
    store := fun k =>
      match alookup t.storage k with
      | some s => s.present_value
      | none => if t.storage_was_destroyed then 0 else sigma.store k }

/-- An entire per-address sequence of transitions is truthful when each step
is truthful from the state left by the previous one. -/
def ChainOk : LogicalAccount → List TransitionAccount → Prop
  | _, [] => True
  | sigma, t :: ts => stepOk sigma t ∧ ChainOk (applyStep sigma t) ts

/-- Well-formedness of a pre-block logical state (spec §3 invariant 1,
restricted to what the round-trip needs): an account known not to exist has
no info. -/
def wfInit (sigma : LogicalAccount) : Prop :=
  sigma.status = .LoadedNotExisting → sigma.info = none

/-- The keys (addresses) of an association list. -/
def keysOf {α : Type} (l : List (Nat × α)) : List Nat := l.map (·.1)

/-- The sub-sequence of transitions recorded for one address, in order. -/
def transitionsFor (a : Nat) (L : List (Nat × TransitionAccount)) :
    List TransitionAccount :=
  (L.filter (fun p => p.1 == a)).map (·.2)

/-- Modelled from the spec: applying an account's revert record to its
post-merge bundle entry, read as account info (glossary `Revert`, §3
`AccountInfoRevert`): `DoNothing` keeps the bundle info, `DeleteIt` removes
the account, `RevertTo` restores the recorded info.  An absent revert
record (the collapse rule) leaves the bundle info in place. -/
def revertedInfo (b? : Option BundleAccount) (r? : Option AccountRevert) :
    Option AccountInfo :=
  match r? with
  | none => b?.bind (·.info)
  | some r =>
    match r.account with
    | .DoNothing => b?.bind (·.info)
    | .DeleteIt => none
    | .RevertTo i => some i

/-- Modelled from the spec: the storage valuation after applying an
account's revert record to its post-merge bundle entry, over the backing
pre-block valuation `base` (§3 `RevertToSlot`: `Some v` restores `v`,
`Destroyed` wipes the slot back to its backing value; `wipe_storage` wipes
every slot the revert does not mention). -/
def revertedStore (b? : Option BundleAccount) (r? : Option AccountRevert)
    (base : Nat → Nat) : Nat → Nat :=
  fun k =>
    let post : Nat → Nat := fun x =>
      match b?.bind (fun b => alookup b.storage x) with
      | some s => s.present_value
      | none => base x
    match r? with
    | none => post k
    | some r =>
      match alookup r.storage k with
      | some (.Some v) => v
      | some .Destroyed => base k
      | none => if r.wipe_storage then base k else post k

/-- Composition step used to characterise the buffer contents: fold one more
transition onto the optional transition already recorded for an address. -/
def optCompose (o : Option TransitionAccount) (t : TransitionAccount) :
    Option TransitionAccount :=
  some (match o with
    | some u => u.compose t
    | none => t)

/-- The storage value cached for one slot of one account, if any. -/
def cachedSlot {E : Type} (s : State E) (a k : Nat) : Option Nat :=
  (s.cache.accounts a).bind (fun ca => ca.account.bind (fun pa => pa.storage k))

/-- Balance stored in a cached account (zero when no plain data). -/
def ballOf (ca : CacheAccount) : Nat :=
  match ca.account with
  | some pa => pa.info.balance
  | none => 0

/-- The balance `load_cache_account` would observe for an address: the cached
balance if present, else what the load would install (preloaded bundle, then
database). -/
def effBalance {E : Type} (s : State E) (a : Nat) : Nat :=
  match s.cache.accounts a with
  | some ca => ballOf ca
  | none =>
    match (if s.use_preloaded_bundle then s.bundle_state.account a else none) with
    | some b => ballOf b.intoCacheAccount
    | none =>
      match s.database.basic a with
      | .ok none => 0
      | .ok (some i) => i.balance
      | .error _ => 0

/-- Total amount an `increment_balances` input list adds to one address. -/
def sumForAddr (a : Nat) (l : List (Nat × Nat)) : Nat :=
  ((l.filter (fun p => p.1 == a)).map (·.2)).sum

/-- One block's worth of work on a fresh state: apply each batch of
transitions through `State::apply_transition`, then merge with retention
`Reverts` (spec §8 property 1 scenario). -/
def runBlock {E : Type} (db : DB E)
    (calls : List (List (Nat × TransitionAccount))) : State E :=
  (calls.foldl State.applyTransition (State.buildFresh db)).mergeTransitions .Reverts

/-- Pairwise-distinct keys of an association list (the uniqueness invariant
of a hash map). -/
def distinctKeys {α : Type} (l : List (Nat × α)) : Prop :=
  l.Pairwise (fun p q => p.1 ≠ q.1)

/-- Replace the transition buffer of a state (used to compare runs with and
without the buffer). -/
def setTS {E : Type} (s : State E) (x : Option TransitionState) : State E :=
  { s with transition_state := x }

/-! ### Concrete fixtures used by witnesses and counterexamples -/

/-- A benign test database: no accounts, identity code and block hashes. -/
def dbTest : DB Nat :=
  { basic := fun _ => .ok none
    code_by_hash := fun h => .ok h
    storage := fun _ _ => .ok 0
    block_hash := fun n => .ok n }

/-- A database whose every operation fails with error 7. -/
def dbErr : DB Nat :=
  { basic := fun _ => .error 7
    code_by_hash := fun _ => .error 7
    storage := fun _ _ => .error 7
    block_hash := fun _ => .error 7 }

/-- A concrete non-empty account info. -/
def infoX : AccountInfo :=
  { balance := 5, nonce := 1, code_hash := EMPTY_KECCAK, code := none }

/-- A database holding the non-empty account `infoX` at address 1 and an
empty account at address 3. -/
def dbX : DB Nat :=
  { basic := fun a =>
      if a = 1 then .ok (some infoX)
      else if a = 3 then .ok (some AccountInfo.emptyInfo)
      else .ok none
    code_by_hash := fun h => .ok h
    storage := fun _ _ => .ok 0
    block_hash := fun n => .ok n }

/-- Fresh test states over the fixture databases. -/
def sTest : State Nat := State.buildFresh dbTest

/-- Fresh state over the always-failing database. -/
def sErr : State Nat := State.buildFresh dbErr

/-- Fresh state over `dbX`. -/
def sX : State Nat := State.buildFresh dbX

/-- A state whose address 1 is cached as known-not-existing. -/
def sLNE : State Nat :=
  insertCacheAccount sTest 1 CacheAccount.new_loaded_not_existing

/-- A fresh state built without the transitions buffer (a builder without
`with_bundle_update`). -/
def sNoBuf : State Nat := { sX with transition_state := none }

/-- Account infos mirroring the `reverts_preserve_old_values` unit test in
state.rs: the new account's three stages and the existing account's two. -/
def infoA1 : AccountInfo :=
  { balance := 1, nonce := 1, code_hash := EMPTY_KECCAK, code := none }

/-- Second stage of the new account (nonce 2). -/
def infoA2 : AccountInfo := { infoA1 with nonce := 2 }

/-- Third stage of the new account (nonce 3). -/
def infoA3 : AccountInfo := { infoA1 with nonce := 3 }

/-- Initial info of the existing account (nonce 1). -/
def infoB1 : AccountInfo :=
  { balance := 0, nonce := 1, code_hash := EMPTY_KECCAK, code := none }

/-- Changed info of the existing account (nonce 2). -/
def infoB2 : AccountInfo := { infoB1 with nonce := 2 }

/-- Updated info used by the collapse unit test (balance 1). -/
def infoC2 : AccountInfo := { infoB1 with balance := 1 }

/-- The three transition batches of the `reverts_preserve_old_values` unit
test (address 1 = the created account, address 2 = the existing one). -/
def testPreserveCalls : List (List (Nat × TransitionAccount)) :=
  [[(1, { status := .InMemoryChange, info := some infoA1,
          previous_status := .LoadedNotExisting, previous_info := none,
          storage := [], storage_was_destroyed := false }),
    (2, { status := .InMemoryChange, info := some infoB2,
          previous_status := .Loaded, previous_info := some infoB1,
          storage := [(1, ⟨100, 1000⟩)], storage_was_destroyed := false })],
   [(1, { status := .InMemoryChange, info := some infoA2,
          previous_status := .InMemoryChange, previous_info := some infoA1,
          storage := [], storage_was_destroyed := false })],
   [(1, { status := .InMemoryChange, info := some infoA3,
          previous_status := .InMemoryChange, previous_info := some infoA2,
          storage := [(1, ⟨0, 1⟩)], storage_was_destroyed := false }),
    (2, { status := .InMemoryChange, info := some infoB2,
          previous_status := .InMemoryChange, previous_info := some infoB2,
          storage := [(1, ⟨100, 1000⟩), (2, ⟨200, 2000⟩), (3, ⟨0, 3000⟩)],
          storage_was_destroyed := false })]]

/-- The transition batches of the `bundle_scoped_reverts_collapse` unit test
(address 1 created then destroyed, address 2 changed then reverted,
address 3's slots toggled there and back). -/
def testCollapseCalls : List (List (Nat × TransitionAccount)) :=
  [[(1, { status := .InMemoryChange, info := some infoA1,
          previous_status := .LoadedNotExisting, previous_info := none,
          storage := [], storage_was_destroyed := false }),
    (2, { status := .Changed, info := some infoC2,
          previous_status := .Loaded, previous_info := some infoB1,
          storage := [], storage_was_destroyed := false }),
    (3, { status := .Changed, info := some infoB1,
          previous_status := .Loaded, previous_info := some infoB1,
          storage := [(1, ⟨1, 10⟩), (2, ⟨0, 20⟩)], storage_was_destroyed := false })],
   [(1, { status := .Destroyed, info := none,
          previous_status := .InMemoryChange, previous_info := some infoA1,
          storage := [], storage_was_destroyed := false }),
    (2, { status := .Changed, info := some infoB1,
          previous_status := .Changed, previous_info := some infoC2,
          storage := [], storage_was_destroyed := false }),
    (3, { status := .Changed, info := some infoB1,
          previous_status := .Changed, previous_info := some infoB1,
          storage := [(1, ⟨10, 1⟩), (2, ⟨20, 0⟩)], storage_was_destroyed := false })]]

/-- The transition batches of the `selfdestruct_state_and_reverts` unit test
(a Loaded account destroyed, re-created with slot 1, destroyed again, and
re-created with slot 2). -/
def testSelfdestructCalls : List (List (Nat × TransitionAccount)) :=
  [[(1, { status := .Destroyed, info := none,
          previous_status := .Loaded, previous_info := some infoB1,
          storage := [], storage_was_destroyed := true })],
   [(1, { status := .DestroyedChanged, info := some infoB1,
          previous_status := .Destroyed, previous_info := none,
          storage := [(1, ⟨0, 1⟩)], storage_was_destroyed := false })],
   [(1, { status := .DestroyedAgain, info := none,
          previous_status := .DestroyedChanged, previous_info := some infoB1,
          storage := [], storage_was_destroyed := true })],
   [(1, { status := .DestroyedChanged, info := some infoB1,
          previous_status := .DestroyedAgain, previous_info := none,
          storage := [(2, ⟨0, 2⟩)], storage_was_destroyed := false })]]

/-- A single truthful creation transition used by the round-trip witness. -/
def tW : TransitionAccount :=
  { status := .InMemoryChange, info := some infoX,
    previous_status := .LoadedNotExisting, previous_info := none,
    storage := [], storage_was_destroyed := false }

/-- The pre-block logical state of the round-trip witness. -/
def sigmaW : LogicalAccount :=
  { status := .LoadedNotExisting, info := none, store := fun _ => 0 }

/-! ### Association-list lemmas -/

@[simp]
theorem alookup_nil {α : Type} (k : Nat) : alookup ([] : List (Nat × α)) k = none := rfl

theorem alookup_cons {α : Type} (a : Nat) (v : α) (l : List (Nat × α)) (k : Nat) :
    alookup ((a, v) :: l) k = if k = a then some v else alookup l k := rfl

theorem alookup_append {α : Type} (l1 l2 : List (Nat × α)) (k : Nat) :
    alookup (l1 ++ l2) k =
      match alookup l1 k with
      | some v => some v
      | none => alookup l2 k := by
  induction l1 with
  | nil => simp
  | cons p rest ih =>
    obtain ⟨a, v⟩ := p
    by_cases h : k = a
    · simp [alookup_cons, h]
    · simpa [alookup_cons, h] using ih

theorem alookup_mapEntry {α β : Type} (g : Nat → α → β) (l : List (Nat × α)) (k : Nat) :
    alookup (l.map (fun p => (p.1, g p.1 p.2))) k = (alookup l k).map (g k) := by
  induction l with
  | nil => simp
  | cons p rest ih =>
    obtain ⟨a, v⟩ := p
    by_cases h : k = a
    · subst h; simp [alookup_cons]
    · simpa [alookup_cons, h] using ih

theorem alookup_filterKey {α : Type} (q : Nat → Bool) (l : List (Nat × α)) (k : Nat) :
    alookup (l.filter (fun p => q p.1)) k =
      if q k then alookup l k else none := by
  induction l with
  | nil => simp
  | cons p rest ih =>
    obtain ⟨a, v⟩ := p
    by_cases h : k = a
    · subst h
      by_cases hq : q k
      · simp [List.filter_cons, hq, alookup_cons]
      · simpa [List.filter_cons, Bool.of_not_eq_true hq, alookup_cons, hq] using ih
    · by_cases hq : q a
      · simpa [List.filter_cons, hq, alookup_cons, h] using ih
      · simpa [List.filter_cons, Bool.of_not_eq_true hq, alookup_cons, h] using ih

/-! ### Transition composition is sound for truthful chains -/

theorem compose_swd (t1 t2 : TransitionAccount) :
    (t1.compose t2).storage_was_destroyed =
      (t1.storage_was_destroyed || t2.storage_was_destroyed) := rfl

theorem compose_storage_of_destroyed (t1 t2 : TransitionAccount)
    (h2 : t2.storage_was_destroyed = true) :
    (t1.compose t2).storage = t2.storage := by
  simp [TransitionAccount.compose, h2]

theorem compose_storage_alookup (t1 t2 : TransitionAccount)
    (h2 : t2.storage_was_destroyed = false) (k : Nat) :
    alookup (t1.compose t2).storage k =
      match alookup t1.storage k with
      | some s1 =>
        some (StorageSlot.mk s1.original_value
          (match alookup t2.storage k with
           | some s2 => s2.present_value
           | none => s1.present_value))
      | none => alookup t2.storage k := by
  have hmap := alookup_mapEntry
    (fun a (s1 : StorageSlot) =>
      match alookup t2.storage a with
      | some s2 => StorageSlot.mk s1.original_value s2.present_value
      | none => s1)
    t1.storage k
  have hfil := alookup_filterKey
    (fun a => (alookup t1.storage a).isNone) t2.storage k
  simp only [TransitionAccount.compose, h2, if_neg, Bool.false_eq_true,
    not_false_eq_true, ite_false] at *
  rw [alookup_append, hmap, hfil]
  cases h1 : alookup t1.storage k with
  | none => simp [h1]
  | some s1 =>
    cases h3 : alookup t2.storage k with
    | none => simp [h1, h3]
    | some s2 => simp [h1, h3]

theorem compose_stepOk (sigma : LogicalAccount) (t1 t2 : TransitionAccount)
    (h1 : stepOk sigma t1) (h2 : stepOk (applyStep sigma t1) t2) :
    stepOk sigma (t1.compose t2) := by
  obtain ⟨hs1, hi1, hst1⟩ := h1
  obtain ⟨-, -, hst2⟩ := h2
  refine ⟨hs1, hi1, ?_⟩
  intro k s hks
  rw [compose_swd]
  by_cases hd2 : t2.storage_was_destroyed
  · rw [compose_storage_of_destroyed t1 t2 hd2] at hks
    have := hst2 k s hks
    simp [hd2] at this ⊢
    exact this
  · have hd2' : t2.storage_was_destroyed = false := by simpa using hd2
    rw [compose_storage_alookup t1 t2 hd2'] at hks
    cases h1k : alookup t1.storage k with
    | some s1 =>
      rw [h1k] at hks
      have horig : s.original_value = s1.original_value := by
        cases hks; rfl
      rw [horig, hst1 k s1 h1k]
      simp [hd2']
    | none =>
      rw [h1k] at hks
      have := hst2 k s hks
      rw [this]
      simp [hd2', applyStep, h1k]

theorem compose_applyStep (sigma : LogicalAccount) (t1 t2 : TransitionAccount) :
    applyStep sigma (t1.compose t2) = applyStep (applyStep sigma t1) t2 := by
  ext
  · rfl
  · rfl
  · rename_i k
    show (applyStep sigma (t1.compose t2)).store k = (applyStep (applyStep sigma t1) t2).store k
    by_cases hd2 : t2.storage_was_destroyed
    · simp only [applyStep, compose_storage_of_destroyed t1 t2 hd2, compose_swd, hd2,
        Bool.or_true]
      cases h3 : alookup t2.storage k <;> simp [h3]
    · have hd2' : t2.storage_was_destroyed = false := by simpa using hd2
      simp only [applyStep, compose_storage_alookup t1 t2 hd2', compose_swd, hd2',
        Bool.or_false]
      cases h1k : alookup t1.storage k with
      | some s1 =>
        cases h3 : alookup t2.storage k <;> simp [h1k, h3]
      | none =>
        cases h3 : alookup t2.storage k <;> simp [h1k, h3]

theorem chain_foldl_compose (ts : List TransitionAccount) :
    ∀ (sigma : LogicalAccount) (t : TransitionAccount),
      stepOk sigma t → ChainOk (applyStep sigma t) ts →
      stepOk sigma (ts.foldl TransitionAccount.compose t) ∧
      applyStep sigma (ts.foldl TransitionAccount.compose t) =
        ts.foldl applyStep (applyStep sigma t) := by
  induction ts with
  | nil => intro sigma t h _; exact ⟨h, rfl⟩
  | cons u rest ih =>
    intro sigma t h hc
    obtain ⟨hu, hrest⟩ := hc
    have hcs := compose_stepOk sigma t u h hu
    have hce := compose_applyStep sigma t u
    have hr := ih sigma (t.compose u) hcs (by rw [hce]; exact hrest)
    refine ⟨hr.1, ?_⟩
    rw [List.foldl_cons, List.foldl_cons, hr.2, hce]


/-! ### Buffer insertion lemmas -/

theorem insertTransition_alookup (ts : TransitionState) (a : Nat)
    (t : TransitionAccount) (b : Nat) :
    alookup (ts.insertTransition (a, t)) b =
      if b = a then optCompose (alookup ts a) t else alookup ts b := by
  induction ts with
  | nil =>
    by_cases h : b = a <;>
      simp [TransitionState.insertTransition, alookup_cons, optCompose, h]
  | cons p rest ih =>
    obtain ⟨c, u⟩ := p
    by_cases hca : c = a
    · subst hca
      by_cases hb : b = c <;>
        simp [TransitionState.insertTransition, alookup_cons, optCompose, hb]
    · have hac : ¬ a = c := fun h => hca h.symm
      by_cases hb : b = c
      · subst hb
        simp [TransitionState.insertTransition, hca, alookup_cons, hac]
      · simp [TransitionState.insertTransition, hca, alookup_cons, hb, hac, ih]

theorem mem_insertTransition (ts : TransitionState) (a : Nat)
    (t : TransitionAccount) (q : Nat × TransitionAccount)
    (hq : q ∈ ts.insertTransition (a, t)) :
    q.1 = a ∨ ∃ p ∈ ts, p.1 = q.1 := by
  induction ts with
  | nil =>
    simp [TransitionState.insertTransition] at hq
    subst hq; exact Or.inl rfl
  | cons p rest ih =>
    obtain ⟨c, u⟩ := p
    by_cases hca : c = a
    · subst hca
      simp [TransitionState.insertTransition] at hq
      rcases hq with h | h
      · subst h; exact Or.inl rfl
      · exact Or.inr ⟨q, List.mem_cons_of_mem _ h, rfl⟩
    · simp [TransitionState.insertTransition, hca] at hq
      rcases hq with h | h
      · subst h; exact Or.inr ⟨(c, u), List.mem_cons_self _ _, rfl⟩
      · rcases ih h with h2 | h2
        · exact Or.inl h2
        · obtain ⟨p, hp, hpe⟩ := h2
          exact Or.inr ⟨p, List.mem_cons_of_mem _ hp, hpe⟩

theorem distinctKeys_insertTransition (ts : TransitionState) (a : Nat)
    (t : TransitionAccount) (h : distinctKeys ts) :
    distinctKeys (ts.insertTransition (a, t)) := by
  induction ts with
  | nil => simp [TransitionState.insertTransition, distinctKeys]
  | cons p rest ih =>
    obtain ⟨c, u⟩ := p
    rw [distinctKeys, List.pairwise_cons] at h
    obtain ⟨hhead, hrest⟩ := h
    by_cases hca : c = a
    · subst hca
      have hred : TransitionState.insertTransition ((c, u) :: rest) (c, t) =
          (c, u.compose t) :: rest := by
        simp [TransitionState.insertTransition]
      rw [hred, distinctKeys, List.pairwise_cons]
      exact ⟨hhead, hrest⟩
    · have hred : TransitionState.insertTransition ((c, u) :: rest) (a, t) =
          (c, u) :: TransitionState.insertTransition rest (a, t) := by
        simp [TransitionState.insertTransition, hca]
      rw [hred, distinctKeys, List.pairwise_cons]
      refine ⟨?_, ih hrest⟩
      intro q hq
      rcases mem_insertTransition rest a t q hq with h2 | h2
      · rw [h2]; exact hca
      · obtain ⟨p, hp, hpe⟩ := h2
        rw [← hpe]
        exact hhead p hp

theorem distinctKeys_addTransitions (L : List (Nat × TransitionAccount)) :
    ∀ ts : TransitionState, distinctKeys ts →
      distinctKeys (ts.addTransitions L) := by
  induction L with
  | nil => intro ts h; exact h
  | cons p rest ih =>
    intro ts h
    obtain ⟨a, t⟩ := p
    exact ih (ts.insertTransition (a, t)) (distinctKeys_insertTransition ts a t h)

theorem addTransitions_alookup (L : List (Nat × TransitionAccount)) :
    ∀ (ts : TransitionState) (a : Nat),
      alookup (ts.addTransitions L) a =
        (transitionsFor a L).foldl optCompose (alookup ts a) := by
  induction L with
  | nil => intro ts a; rfl
  | cons p rest ih =>
    intro ts a
    obtain ⟨b, t⟩ := p
    have hstep : TransitionState.addTransitions ts ((b, t) :: rest) =
        TransitionState.addTransitions (ts.insertTransition (b, t)) rest := rfl
    by_cases h : b = a
    · have hba : (b == a) = true := by simp [h]
      have htf : transitionsFor a ((b, t) :: rest) = t :: transitionsFor a rest := by
        simp [transitionsFor, List.filter_cons, hba]
      rw [hstep, ih, htf, List.foldl_cons, insertTransition_alookup]
      have hab : a = b := h.symm
      simp [hab]
    · have hba : (b == a) = false := by simp [h]
      have htf : transitionsFor a ((b, t) :: rest) = transitionsFor a rest := by
        simp [transitionsFor, List.filter_cons, hba]
      have hab : ¬ a = b := fun h2 => h h2.symm
      rw [hstep, ih, htf, insertTransition_alookup]
      simp [hab]

theorem foldl_optCompose_some (l : List TransitionAccount) :
    ∀ u : TransitionAccount,
      l.foldl optCompose (some u) = some (l.foldl TransitionAccount.compose u) := by
  induction l with
  | nil => intro u; rfl
  | cons t rest ih =>
    intro u
    rw [List.foldl_cons, List.foldl_cons]
    simpa [optCompose] using ih (u.compose t)

theorem addTransitions_nil_alookup (L : List (Nat × TransitionAccount)) (a : Nat) :
    alookup (TransitionState.addTransitions [] L) a =
      match transitionsFor a L with
      | [] => none
      | t :: rest => some (rest.foldl TransitionAccount.compose t) := by
  rw [addTransitions_alookup]
  cases h : transitionsFor a L with
  | nil => rfl
  | cons t rest =>
    rw [List.foldl_cons]
    simpa [optCompose] using foldl_optCompose_some rest t

/-! ### The merge fold over a fresh bundle -/

theorem alookup_eq_none_of_forall {α : Type} (l : List (Nat × α)) (k : Nat)
    (h : ∀ q ∈ l, ¬ k = q.1) : alookup l k = none := by
  induction l with
  | nil => rfl
  | cons p rest ih =>
    rw [show alookup (p :: rest) k = if k = p.1 then some p.2 else alookup rest k from rfl]
    rw [if_neg (h p (List.mem_cons_self _ _))]
    exact ih (fun q hq => h q (List.mem_cons_of_mem _ hq))

theorem mergeFold_spec (ts : List (Nat × TransitionAccount)) :
    ∀ (st : Nat → Option BundleAccount) (rvs : List (Nat × AccountRevert)),
      distinctKeys ts → (∀ q ∈ ts, st q.1 = none) →
      (∀ b, (ts.foldl mergeStep (st, rvs)).1 b =
          (match alookup ts b with
           | some t => some (updateAndCreateRevert none t).1
           | none => st b)) ∧
      (ts.foldl mergeStep (st, rvs)).2 =
        rvs ++ ts.filterMap
          (fun p => ((updateAndCreateRevert none p.2).2).map (fun r => (p.1, r))) := by
  induction ts with
  | nil => intro st rvs _ _; exact ⟨fun b => rfl, by simp⟩
  | cons p rest ih =>
    intro st rvs hd hfresh
    obtain ⟨a, t⟩ := p
    rw [distinctKeys, List.pairwise_cons] at hd
    obtain ⟨hhead, hrest⟩ := hd
    have hsta : st a = none := hfresh (a, t) (List.mem_cons_self _ _)
    have hstep : mergeStep (st, rvs) (a, t) =
        (fun x => if x = a then some (updateAndCreateRevert none t).1 else st x,
         match (updateAndCreateRevert none t).2 with
         | some r => rvs ++ [(a, r)]
         | none => rvs) := by
      simp only [mergeStep, hsta]
    have hfresh1 : ∀ q ∈ rest,
        (fun x => if x = a then some (updateAndCreateRevert none t).1 else st x) q.1 = none := by
      intro q hq
      have : ¬ q.1 = a := fun h2 => hhead q hq h2.symm
      simp only [this, if_false, ite_false]
      exact hfresh q (List.mem_cons_of_mem _ hq)
    have hih := ih
      (fun x => if x = a then some (updateAndCreateRevert none t).1 else st x)
      (match (updateAndCreateRevert none t).2 with
       | some r => rvs ++ [(a, r)]
       | none => rvs)
      hrest hfresh1
    rw [List.foldl_cons, hstep]
    constructor
    · intro b
      rw [hih.1 b]
      by_cases hba : b = a
      · subst hba
        have hnone : alookup rest b = none :=
          alookup_eq_none_of_forall rest b (fun q hq => hhead q hq)
        rw [hnone, alookup_cons, if_pos rfl]
        simp
      · rw [alookup_cons, if_neg hba]
        cases h : alookup rest b with
        | some t' => simp [h]
        | none => simp [h, hba]
    · rw [hih.2, List.filterMap_cons]
      cases h : (updateAndCreateRevert none t).2 with
      | some r => simp [h, List.append_assoc]
      | none => simp [h]

/-! ### Per-address revert round-trip over a fresh bundle -/

theorem alookup_mem {α : Type} (l : List (Nat × α)) (k : Nat) (v : α)
    (h : alookup l k = some v) : (k, v) ∈ l := by
  induction l with
  | nil => simp at h
  | cons p rest ih =>
    obtain ⟨a, u⟩ := p
    rw [alookup_cons] at h
    by_cases hk : k = a
    · rw [if_pos hk] at h
      cases h
      subst hk
      exact List.mem_cons_self _ _
    · rw [if_neg hk] at h
      exact List.mem_cons_of_mem _ (ih h)

theorem storageUnchanged_alookup (l : List (Nat × StorageSlot)) (k : Nat)
    (s : StorageSlot) (hu : storageUnchanged l = true)
    (h : alookup l k = some s) : s.original_value = s.present_value := by
  have hm := alookup_mem l k s h
  have hb := (List.all_eq_true.mp hu) (k, s) hm
  exact beq_iff_eq.mp hb

theorem mergeBundleStorage_nil_alookup (ts : List (Nat × StorageSlot)) (k : Nat) :
    alookup (mergeBundleStorage [] ts) k = alookup ts k := by
  unfold mergeBundleStorage
  rw [List.map_nil, List.nil_append]
  have hfk := alookup_filterKey (fun a => (alookup ([] : List (Nat × StorageSlot)) a).isNone) ts k
  simp only [alookup_nil, Option.isNone_none, if_true] at hfk
  rw [show (List.filter (fun p => (alookup ([] : List (Nat × StorageSlot)) p.1).isNone) ts) =
      ts.filter (fun p => (alookup ([] : List (Nat × StorageSlot)) p.1).isNone) from rfl]
  exact hfk

theorem uacr_none_eq (t : TransitionAccount) :
    updateAndCreateRevert none t =
      ({ info := t.info
         original_info := t.previous_info
         storage := mergeBundleStorage [] t.storage
         status := t.status },
       if (decide (t.info = t.previous_info) && storageUnchanged t.storage &&
            !t.storage_was_destroyed) then none
       else some
         { account :=
             (if t.previous_status = .LoadedNotExisting then .DeleteIt
              else
                match t.previous_info with
                | none => .DeleteIt
                | some pi =>
                  if t.info = some pi then .DoNothing else .RevertTo pi)
           previous_status := t.previous_status
           storage := t.storage.map (fun p =>
             (p.1, if t.storage_was_destroyed then RevertToSlot.Destroyed
                   else RevertToSlot.Some p.2.original_value))
           wipe_storage := t.storage_was_destroyed }) := by
  simp only [updateAndCreateRevert, ite_self]
  cases hpi : t.previous_info <;>
    by_cases hps : t.previous_status = .LoadedNotExisting <;>
      simp [hps, hpi]

theorem roundtrip_account (sigma : LogicalAccount) (t : TransitionAccount)
    (hw : wfInit sigma) (h : stepOk sigma t) :
    revertedInfo (some (updateAndCreateRevert none t).1)
        (updateAndCreateRevert none t).2 = sigma.info ∧
    ∀ k, revertedStore (some (updateAndCreateRevert none t).1)
        (updateAndCreateRevert none t).2 sigma.store k = sigma.store k := by
  obtain ⟨hstat, hinfo, hstore⟩ := h
  rw [uacr_none_eq]
  by_cases hc : (decide (t.info = t.previous_info) && storageUnchanged t.storage &&
      !t.storage_was_destroyed) = true
  · -- the collapse rule fired: no revert entry, and the merge was a no-op
    rw [if_pos hc]
    have hie : t.info = t.previous_info := by
      have := hc
      simp only [Bool.and_eq_true, decide_eq_true_eq] at this
      exact this.1.1
    have hsu : storageUnchanged t.storage = true := by
      have := hc
      simp only [Bool.and_eq_true, decide_eq_true_eq] at this
      exact this.1.2
    have hnw : t.storage_was_destroyed = false := by
      have := hc
      simp only [Bool.and_eq_true, decide_eq_true_eq, Bool.not_eq_true'] at this
      exact this.2
    constructor
    · simp [revertedInfo, hie, hinfo]
    · intro k
      simp only [revertedStore, Option.some_bind]
      rw [mergeBundleStorage_nil_alookup]
      cases hts : alookup t.storage k with
      | none => rfl
      | some s =>
        have heq := storageUnchanged_alookup t.storage k s hsu hts
        have horig := hstore k s hts
        rw [hnw] at horig
        simp at horig
        simp [← heq, horig]
  · rw [if_neg hc]
    constructor
    · -- info round-trip
      by_cases hps : t.previous_status = .LoadedNotExisting
      · have hs : sigma.status = .LoadedNotExisting := by rw [← hstat]; exact hps
        have h1 : sigma.info = none := hw hs
        simp [revertedInfo, hps, h1]
      · cases hpi : t.previous_info with
        | none =>
          have h1 : sigma.info = none := by rw [← hinfo, hpi]
          simp [revertedInfo, hps, hpi, h1]
        | some pi =>
          have h1 : sigma.info = some pi := by rw [← hinfo, hpi]
          by_cases hieq : t.info = some pi
          · simp [revertedInfo, hps, hpi, hieq, h1]
          · simp [revertedInfo, hps, hpi, hieq, h1]
    · -- storage round-trip
      intro k
      simp only [revertedStore, Option.some_bind]
      have hmap := alookup_mapEntry
        (fun _ (s : StorageSlot) =>
          if t.storage_was_destroyed then RevertToSlot.Destroyed
          else RevertToSlot.Some s.original_value)
        t.storage k
      rw [hmap]
      cases hts : alookup t.storage k with
      | some s =>
        by_cases hwp : t.storage_was_destroyed
        · simp [hwp]
        · have horig := hstore k s hts
          rw [show t.storage_was_destroyed = false by simpa using hwp] at horig
          simp at horig
          simp [hwp, horig]
      | none =>
        by_cases hwp : t.storage_was_destroyed
        · simp [hwp]
        · rw [mergeBundleStorage_nil_alookup]
          simp [hwp, hts]

/-! ### Plumbing: from façade calls to the merge fold -/

theorem applyTransition_some {E : Type} (s : State E) (ts : TransitionState)
    (l : List (Nat × TransitionAccount)) (h : s.transition_state = some ts) :
    s.applyTransition l = { s with transition_state := some (ts.addTransitions l) } := by
  unfold State.applyTransition
  rw [h]

theorem addTransitions_append (ts : TransitionState)
    (l1 l2 : List (Nat × TransitionAccount)) :
    (ts.addTransitions l1).addTransitions l2 = ts.addTransitions (l1 ++ l2) :=
  (List.foldl_append _ _ _ _).symm

theorem foldl_applyTransition {E : Type} (calls : List (List (Nat × TransitionAccount))) :
    ∀ (s : State E) (ts : TransitionState), s.transition_state = some ts →
      calls.foldl State.applyTransition s =
        { s with transition_state := some (ts.addTransitions calls.flatten) } := by
  induction calls with
  | nil =>
    intro s ts h
    rw [List.foldl_nil]
    cases s
    simp only [State.mk.injEq] at h ⊢
    simp [h, TransitionState.addTransitions]
  | cons l rest ih =>
    intro s ts h
    rw [List.foldl_cons, applyTransition_some s ts l h,
        ih _ (ts.addTransitions l) rfl]
    cases s
    simp [addTransitions_append]

theorem mergeTransitions_some {E : Type} (s : State E) (ts : TransitionState)
    (r : BundleRetention) (h : s.transition_state = some ts) :
    s.mergeTransitions r =
      { s with
        transition_state := some ([] : TransitionState)
        bundle_state := s.bundle_state.applyTransitionsAndCreateReverts ts r } := by
  unfold State.mergeTransitions
  rw [h]

theorem applyTCR_fresh (ts : TransitionState) (hd : distinctKeys ts) :
    (BundleState.empty.applyTransitionsAndCreateReverts ts .Reverts).reverts =
      [ts.filterMap
        (fun p => ((updateAndCreateRevert none p.2).2).map (fun r => (p.1, r)))] ∧
    ∀ b, (BundleState.empty.applyTransitionsAndCreateReverts ts .Reverts).state b =
      (match alookup ts b with
       | some t => some (updateAndCreateRevert none t).1
       | none => none) := by
  have hm := mergeFold_spec ts (fun _ => none) [] hd (fun q _ => rfl)
  unfold BundleState.applyTransitionsAndCreateReverts
  refine ⟨?_, ?_⟩
  · simp [BundleState.empty, hm.2]
  · intro b
    have h1 := hm.1 b
    simpa [BundleState.empty] using h1

theorem mem_filterMap_keyed {α β : Type} (g : α → Option β)
    (ts : List (Nat × α)) (q : Nat × β)
    (hq : q ∈ ts.filterMap (fun p => (g p.2).map (fun r => (p.1, r)))) :
    ∃ p ∈ ts, p.1 = q.1 := by
  rcases List.mem_filterMap.mp hq with ⟨p, hp, he⟩
  cases hg : g p.2 with
  | none => rw [hg] at he; simp at he
  | some r =>
    rw [hg] at he
    simp at he
    exact ⟨p, hp, by rw [← he]⟩

theorem alookup_filterMap_keyed {α β : Type} (g : α → Option β) :
    ∀ (ts : List (Nat × α)), distinctKeys ts → ∀ a : Nat,
      alookup (ts.filterMap (fun p => (g p.2).map (fun r => (p.1, r)))) a =
        (match alookup ts a with
         | some t => g t
         | none => none) := by
  intro ts
  induction ts with
  | nil => intro _ a; rfl
  | cons p rest ih =>
    intro hd a
    obtain ⟨b, t⟩ := p
    rw [distinctKeys, List.pairwise_cons] at hd
    obtain ⟨hhead, hrest⟩ := hd
    rw [List.filterMap_cons]
    by_cases hab : a = b
    · subst hab
      cases hg : g t with
      | some r =>
        simp only [hg, Option.map_some']
        rw [alookup_cons, if_pos rfl, alookup_cons, if_pos rfl]
        simp [hg]
      | none =>
        simp only [hg, Option.map_none']
        rw [alookup_cons, if_pos rfl]
        have hz : alookup (rest.filterMap
            (fun p => (g p.2).map (fun r => (p.1, r)))) a = none := by
          apply alookup_eq_none_of_forall
          intro q hq h2
          obtain ⟨p, hp, hpe⟩ := mem_filterMap_keyed g rest q hq
          exact hhead p hp (by rw [hpe, ← h2])
        rw [hz]
        simp [hg]
    · cases hg : g t with
      | some r =>
        simp only [hg, Option.map_some']
        rw [alookup_cons, if_neg hab, alookup_cons, if_neg hab]
        exact ih hrest a
      | none =>
        simp only [hg, Option.map_none']
        rw [alookup_cons, if_neg hab]
        exact ih hrest a

/-- C1: for every sequence of transitions pushed through
`State::apply_transition` on a freshly built state (builder with
`with_bundle_update`) and merged by `State::merge_transitions` with
retention `Reverts`, applying the revert entries recorded for that block to
the post-merge bundle state yields exactly the account state (info and
storage) that held before the block's transitions were applied.  The
hypotheses state that the transition sequence of every touched address
truthfully records the pre-block logical state `sigma0` (its `previous_*`
fields and slot originals match the actual pre-state, chained across the
sequence), which is what the VM guarantees for real executions. -/
theorem merge_reverts_round_trip {E : Type} (db : DB E)
    (calls : List (List (Nat × TransitionAccount)))
    (sigma0 : Nat → LogicalAccount)
    (hok : ∀ a, transitionsFor a calls.flatten ≠ [] →
      wfInit (sigma0 a) ∧ ChainOk (sigma0 a) (transitionsFor a calls.flatten)) :
    ∃ blockReverts,
      (runBlock db calls).bundle_state.reverts = [blockReverts] ∧
      ∀ a, transitionsFor a calls.flatten ≠ [] →
        revertedInfo ((runBlock db calls).bundle_state.state a)
            (alookup blockReverts a) = (sigma0 a).info ∧
        ∀ k, revertedStore ((runBlock db calls).bundle_state.state a)
            (alookup blockReverts a) (sigma0 a).store k = (sigma0 a).store k := by
  have hfold := foldl_applyTransition calls (State.buildFresh db)
    ([] : TransitionState) rfl
  have hbufd : distinctKeys (TransitionState.addTransitions [] calls.flatten) :=
    distinctKeys_addTransitions calls.flatten [] List.Pairwise.nil
  have hmt := mergeTransitions_some
    (calls.foldl State.applyTransition (State.buildFresh db))
    (TransitionState.addTransitions [] calls.flatten) .Reverts (by rw [hfold])
  have hbundle : (runBlock db calls).bundle_state =
      BundleState.empty.applyTransitionsAndCreateReverts
        (TransitionState.addTransitions [] calls.flatten) .Reverts := by
    rw [runBlock, hmt, hfold]
    rfl
  obtain ⟨hrev, hstate⟩ :=
    applyTCR_fresh (TransitionState.addTransitions [] calls.flatten) hbufd
  refine ⟨(TransitionState.addTransitions [] calls.flatten).filterMap
      (fun p => ((updateAndCreateRevert none p.2).2).map (fun r => (p.1, r))),
    ?_, ?_⟩
  · rw [hbundle]; exact hrev
  · intro a ha
    cases htf : transitionsFor a calls.flatten with
    | nil => exact absurd htf ha
    | cons t rest =>
      have hlook : alookup (TransitionState.addTransitions [] calls.flatten) a =
          some (rest.foldl TransitionAccount.compose t) := by
        rw [addTransitions_nil_alookup, htf]
      obtain ⟨hw, hchain⟩ := hok a ha
      rw [htf] at hchain
      obtain ⟨hstep1, hchainrest⟩ := hchain
      have hcomp :=
        (chain_foldl_compose rest (sigma0 a) t hstep1 hchainrest).1
      have hrt := roundtrip_account (sigma0 a)
        (rest.foldl TransitionAccount.compose t) hw hcomp
      have hstA : (runBlock db calls).bundle_state.state a =
          some (updateAndCreateRevert none (rest.foldl TransitionAccount.compose t)).1 := by
        rw [hbundle, hstate a, hlook]
      have hrevA : alookup ((TransitionState.addTransitions [] calls.flatten).filterMap
            (fun p => ((updateAndCreateRevert none p.2).2).map (fun r => (p.1, r)))) a =
          (updateAndCreateRevert none (rest.foldl TransitionAccount.compose t)).2 := by
        rw [alookup_filterMap_keyed (fun u => (updateAndCreateRevert none u).2)
          (TransitionState.addTransitions [] calls.flatten) hbufd a, hlook]
      rw [hstA, hrevA]
      exact hrt

/-- Witness for the round-trip theorem at a concrete one-transition block. -/
theorem merge_reverts_round_trip_witness :
    ∃ blockReverts,
      (runBlock dbTest [[(1, tW)]]).bundle_state.reverts = [blockReverts] ∧
      ∀ a, transitionsFor a ([[(1, tW)]] :
          List (List (Nat × TransitionAccount))).flatten ≠ [] →
        revertedInfo ((runBlock dbTest [[(1, tW)]]).bundle_state.state a)
            (alookup blockReverts a) = sigmaW.info ∧
        ∀ k, revertedStore ((runBlock dbTest [[(1, tW)]]).bundle_state.state a)
            (alookup blockReverts a) sigmaW.store k = sigmaW.store k := by
  apply merge_reverts_round_trip dbTest [[(1, tW)]] (fun _ => sigmaW)
  intro a ha
  refine ⟨fun _ => rfl, ?_⟩
  by_cases h : a = 1
  · subst h
    have ht : transitionsFor 1 ([[(1, tW)]] :
        List (List (Nat × TransitionAccount))).flatten = [tW] := rfl
    rw [ht]
    refine ⟨⟨rfl, rfl, ?_⟩, trivial⟩
    intro k s hks
    simp [tW] at hks
  · have ht : transitionsFor a ([[(1, tW)]] :
        List (List (Nat × TransitionAccount))).flatten = [] := by
      simp [transitionsFor, List.filter_cons, beq_eq_false_iff_ne.mpr (Ne.symm h)]
    exact (ha ht).elim

/-! ### Cache-load characterisation lemmas -/

theorem insertCacheAccount_accounts_self {E : Type} (s : State E) (a : Nat)
    (ca : CacheAccount) :
    (insertCacheAccount s a ca).cache.accounts a = some ca := by
  simp [insertCacheAccount]

theorem insertCacheAccount_accounts_other {E : Type} (s : State E) (a b : Nat)
    (ca : CacheAccount) (h : ¬ b = a) :
    (insertCacheAccount s a ca).cache.accounts b = s.cache.accounts b := by
  simp [insertCacheAccount, h]

theorem load_hit {E : Type} (s : State E) (a : Nat) (ca : CacheAccount)
    (h : s.cache.accounts a = some ca) :
    s.load_cache_account a = (.ok ca, s, 0) := by
  unfold State.load_cache_account
  rw [h]

theorem load_miss {E : Type} (s : State E) (a : Nat)
    (h1 : s.cache.accounts a = none)
    (h2 : (if s.use_preloaded_bundle then s.bundle_state.account a else none) = none) :
    s.load_cache_account a =
      (match s.database.basic a with
       | .error e => (.error e, s, 1)
       | .ok none =>
         (.ok CacheAccount.new_loaded_not_existing,
          insertCacheAccount s a CacheAccount.new_loaded_not_existing, 1)
       | .ok (some info) =>
         if info.is_empty then
           (.ok (CacheAccount.new_loaded_empty_eip161 (fun _ => none)),
            insertCacheAccount s a (CacheAccount.new_loaded_empty_eip161 (fun _ => none)), 1)
         else
           (.ok (CacheAccount.new_loaded info (fun _ => none)),
            insertCacheAccount s a (CacheAccount.new_loaded info (fun _ => none)), 1)) := by
  unfold State.load_cache_account
  rw [h1, h2]

theorem load_miss_bundle {E : Type} (s : State E) (a : Nat) (b : BundleAccount)
    (h1 : s.cache.accounts a = none)
    (h2 : (if s.use_preloaded_bundle then s.bundle_state.account a else none) = some b) :
    s.load_cache_account a =
      (.ok b.intoCacheAccount, insertCacheAccount s a b.intoCacheAccount, 0) := by
  unfold State.load_cache_account
  rw [h1, h2]

/-! ### C2: the block-hash pruning window -/

/-- C2 counterexample: the claim fails when `block_hash(n)` hits the cache.
Querying 300, then 1, then 300 again on a fresh state succeeds, yet key 1
remains cached although 1 < 300 − BLOCK_HASH_HISTORY: the occupied branch of
`State::block_hash` (state.rs line 291) performs no pruning. -/
theorem block_hash_cached_hit_skips_pruning_cex :
    ((((sTest.block_hash 300).2.block_hash 1).2.block_hash 300).1 = .ok 300) ∧
    ((((sTest.block_hash 300).2.block_hash 1).2.block_hash 300).2.block_hashes 1 = some 1) ∧
    1 < 300 - BLOCK_HASH_HISTORY := by
  refine ⟨rfl, rfl, by decide⟩

/-- C2 amended: pruning happens exactly on a cache miss.  After a
`block_hash(n)` call that misses the cache (`n` not already present) and
succeeds, no key in `block_hashes` is less than `n − BLOCK_HASH_HISTORY`; a
call that hits the cache prunes nothing, so older keys may survive below the
window of the latest query. -/
theorem block_hash_miss_prunes_window {E : Type} (s : State E) (n h : Nat)
    (hmiss : s.block_hashes n = none)
    (hdb : s.database.block_hash n = .ok h) :
    (s.block_hash n).1 = .ok h ∧
    ∀ k, k < n - BLOCK_HASH_HISTORY → (s.block_hash n).2.block_hashes k = none := by
  unfold State.block_hash
  rw [hmiss, hdb]
  refine ⟨rfl, ?_⟩
  intro k hk
  simp [hk]

/-- Witness: a fresh miss of block 300 prunes everything below 44. -/
theorem block_hash_miss_prunes_window_witness :
    (sTest.block_hash 300).1 = .ok 300 ∧
    ∀ k, k < 300 - BLOCK_HASH_HISTORY →
      (sTest.block_hash 300).2.block_hashes k = none :=
  block_hash_miss_prunes_window sTest 300 300 rfl rfl

/-! ### C3: cache misses install the account the database describes -/

/-- C3: for an address absent from the cache (and from the preloaded bundle
when that is enabled), `load_cache_account` installs the cache entry
determined by `database.basic`: None gives `LoadedNotExisting`, Some(empty)
gives `LoadedEmptyEIP161`, Some(non-empty) gives `Loaded` holding that
info (state.rs lines 189-211). -/
theorem load_cache_account_maps_db_outcomes {E : Type} (s : State E) (a : Nat)
    (hmiss : s.cache.accounts a = none)
    (hbundle : s.use_preloaded_bundle = true → s.bundle_state.account a = none) :
    (s.database.basic a = .ok none →
      s.load_cache_account a =
        (.ok CacheAccount.new_loaded_not_existing,
         insertCacheAccount s a CacheAccount.new_loaded_not_existing, 1)) ∧
    (∀ i, s.database.basic a = .ok (some i) → i.is_empty = true →
      s.load_cache_account a =
        (.ok (CacheAccount.new_loaded_empty_eip161 (fun _ => none)),
         insertCacheAccount s a (CacheAccount.new_loaded_empty_eip161 (fun _ => none)), 1)) ∧
    (∀ i, s.database.basic a = .ok (some i) → i.is_empty = false →
      s.load_cache_account a =
        (.ok (CacheAccount.new_loaded i (fun _ => none)),
         insertCacheAccount s a (CacheAccount.new_loaded i (fun _ => none)), 1)) := by
  have hpre : (if s.use_preloaded_bundle then s.bundle_state.account a else none) = none := by
    cases hb : s.use_preloaded_bundle
    · simp [hb]
    · simp [hb, hbundle hb]
  have hlm := load_miss s a hmiss hpre
  refine ⟨?_, ?_, ?_⟩
  · intro hdb; rw [hlm, hdb]
  · intro i hdb he; rw [hlm, hdb]; simp [he]
  · intro i hdb he; rw [hlm, hdb]; simp [he]

/-- Witness for the three database outcomes over `dbX`: address 2 is absent,
address 3 is empty, address 1 is non-empty. -/
theorem load_cache_account_maps_db_outcomes_witness :
    (sX.load_cache_account 2 =
      (.ok CacheAccount.new_loaded_not_existing,
       insertCacheAccount sX 2 CacheAccount.new_loaded_not_existing, 1)) ∧
    (sX.load_cache_account 3 =
      (.ok (CacheAccount.new_loaded_empty_eip161 (fun _ => none)),
       insertCacheAccount sX 3 (CacheAccount.new_loaded_empty_eip161 (fun _ => none)), 1)) ∧
    (sX.load_cache_account 1 =
      (.ok (CacheAccount.new_loaded infoX (fun _ => none)),
       insertCacheAccount sX 1 (CacheAccount.new_loaded infoX (fun _ => none)), 1)) :=
  ⟨(load_cache_account_maps_db_outcomes sX 2 rfl
      (fun h => Bool.noConfusion h)).1 rfl,
   ((load_cache_account_maps_db_outcomes sX 3 rfl
      (fun h => Bool.noConfusion h)).2.1 AccountInfo.emptyInfo rfl (by decide)),
   ((load_cache_account_maps_db_outcomes sX 1 rfl
      (fun h => Bool.noConfusion h)).2.2 infoX rfl (by decide))⟩


/-! ### C4: load idempotence of `basic` -/

/-- C4 counterexample to the claim as stated: over a database whose `basic`
fails, two `basic` calls return the same error yet consult the database
twice, because an error inserts nothing into the cache (state.rs line 199
propagates before `entry.insert`). -/
theorem basic_twice_erroring_db_cex :
    sErr.basic 5 = (.error 7, sErr, 1) ∧
    (sErr.basic 5).2.2 + (((sErr.basic 5).2.1).basic 5).2.2 = 2 ∧
    ¬ ((sErr.basic 5).2.2 + (((sErr.basic 5).2.1).basic 5).2.2 ≤ 1) := by
  refine ⟨rfl, rfl, by decide⟩

/-- C4 amended: two `basic(addr)` calls on an unchanged database return
equal results, and when the first call does not fail the database is
consulted at most once across the two calls (the second call is served from
the cache).  A failing call caches nothing, so the database would be
consulted again. -/
theorem basic_twice_cached {E : Type} (s : State E) (a : Nat) :
    (((s.basic a).2.1).basic a).1 = (s.basic a).1 ∧
    (∀ r, (s.basic a).1 = Except.ok r →
      (s.basic a).2.2 + (((s.basic a).2.1).basic a).2.2 ≤ 1) := by
  cases hc : s.cache.accounts a with
  | some ca =>
    have hb1 : s.basic a = (.ok ca.account_info, s, 0) := by
      unfold State.basic; rw [load_hit s a ca hc]
    rw [hb1]
    show (s.basic a).1 = .ok ca.account_info ∧
      (∀ r, Except.ok ca.account_info = Except.ok r → 0 + (s.basic a).2.2 ≤ 1)
    rw [hb1]
    exact ⟨rfl, fun r _ => by simp⟩
  | none =>
    cases hpre : (if s.use_preloaded_bundle then s.bundle_state.account a else none) with
    | some b =>
      have hb1 : s.basic a =
          (.ok b.intoCacheAccount.account_info,
           insertCacheAccount s a b.intoCacheAccount, 0) := by
        unfold State.basic; rw [load_miss_bundle s a b hc hpre]
      have hb2 : (insertCacheAccount s a b.intoCacheAccount).basic a =
          (.ok b.intoCacheAccount.account_info,
           insertCacheAccount s a b.intoCacheAccount, 0) := by
        unfold State.basic
        rw [load_hit _ a b.intoCacheAccount (insertCacheAccount_accounts_self s a _)]
      rw [hb1]
      show ((insertCacheAccount s a b.intoCacheAccount).basic a).1 =
          .ok b.intoCacheAccount.account_info ∧
        (∀ r, Except.ok b.intoCacheAccount.account_info = Except.ok r →
          0 + ((insertCacheAccount s a b.intoCacheAccount).basic a).2.2 ≤ 1)
      rw [hb2]
      exact ⟨rfl, fun r _ => by simp⟩
    | none =>
      have hlm := load_miss s a hc hpre
      cases hdb : s.database.basic a with
      | error e =>
        have hb1 : s.basic a = (.error e, s, 1) := by
          unfold State.basic; rw [hlm, hdb]
        rw [hb1]
        show (s.basic a).1 = .error e ∧
          (∀ r, Except.error e = Except.ok r → 1 + (s.basic a).2.2 ≤ 1)
        rw [hb1]
        exact ⟨rfl, fun r hr => by simp at hr⟩
      | ok oi =>
        cases oi with
        | none =>
          have hb1 : s.basic a =
              (.ok CacheAccount.new_loaded_not_existing.account_info,
               insertCacheAccount s a CacheAccount.new_loaded_not_existing, 1) := by
            unfold State.basic; rw [hlm, hdb]
          have hb2 : (insertCacheAccount s a CacheAccount.new_loaded_not_existing).basic a =
              (.ok CacheAccount.new_loaded_not_existing.account_info,
               insertCacheAccount s a CacheAccount.new_loaded_not_existing, 0) := by
            unfold State.basic
            rw [load_hit _ a _ (insertCacheAccount_accounts_self s a _)]
          rw [hb1]
          show ((insertCacheAccount s a CacheAccount.new_loaded_not_existing).basic a).1 =
              .ok CacheAccount.new_loaded_not_existing.account_info ∧
            (∀ r, Except.ok CacheAccount.new_loaded_not_existing.account_info = Except.ok r →
              1 + ((insertCacheAccount s a CacheAccount.new_loaded_not_existing).basic a).2.2 ≤ 1)
          rw [hb2]
          exact ⟨rfl, fun r _ => by simp⟩
        | some i =>
          by_cases he : i.is_empty
          · have hb1 : s.basic a =
                (.ok (CacheAccount.new_loaded_empty_eip161 (fun _ => none)).account_info,
                 insertCacheAccount s a (CacheAccount.new_loaded_empty_eip161 (fun _ => none)), 1) := by
              unfold State.basic; rw [hlm, hdb]; simp [he]
            have hb2 : (insertCacheAccount s a
                  (CacheAccount.new_loaded_empty_eip161 (fun _ => none))).basic a =
                (.ok (CacheAccount.new_loaded_empty_eip161 (fun _ => none)).account_info,
                 insertCacheAccount s a (CacheAccount.new_loaded_empty_eip161 (fun _ => none)), 0) := by
              unfold State.basic
              rw [load_hit _ a _ (insertCacheAccount_accounts_self s a _)]
            rw [hb1]
            show ((insertCacheAccount s a
                  (CacheAccount.new_loaded_empty_eip161 (fun _ => none))).basic a).1 =
                .ok (CacheAccount.new_loaded_empty_eip161 (fun _ => none)).account_info ∧
              (∀ r, Except.ok (CacheAccount.new_loaded_empty_eip161 (fun _ => none)).account_info =
                  Except.ok r →
                1 + ((insertCacheAccount s a
                  (CacheAccount.new_loaded_empty_eip161 (fun _ => none))).basic a).2.2 ≤ 1)
            rw [hb2]
            exact ⟨rfl, fun r _ => by simp⟩
          · have hb1 : s.basic a =
                (.ok (CacheAccount.new_loaded i (fun _ => none)).account_info,
                 insertCacheAccount s a (CacheAccount.new_loaded i (fun _ => none)), 1) := by
              unfold State.basic; rw [hlm, hdb]; simp [he]
            have hb2 : (insertCacheAccount s a
                  (CacheAccount.new_loaded i (fun _ => none))).basic a =
                (.ok (CacheAccount.new_loaded i (fun _ => none)).account_info,
                 insertCacheAccount s a (CacheAccount.new_loaded i (fun _ => none)), 0) := by
              unfold State.basic
              rw [load_hit _ a _ (insertCacheAccount_accounts_self s a _)]
            rw [hb1]
            show ((insertCacheAccount s a
                  (CacheAccount.new_loaded i (fun _ => none))).basic a).1 =
                .ok (CacheAccount.new_loaded i (fun _ => none)).account_info ∧
              (∀ r, Except.ok (CacheAccount.new_loaded i (fun _ => none)).account_info =
                  Except.ok r →
                1 + ((insertCacheAccount s a
                  (CacheAccount.new_loaded i (fun _ => none))).basic a).2.2 ≤ 1)
            rw [hb2]
            exact ⟨rfl, fun r _ => by simp⟩

/-- Witness for the amended idempotence at a concrete loaded address. -/
theorem basic_twice_cached_witness :
    (((sX.basic 1).2.1).basic 1).1 = (sX.basic 1).1 ∧
    (∀ r, (sX.basic 1).1 = Except.ok r →
      (sX.basic 1).2.2 + (((sX.basic 1).2.1).basic 1).2.2 ≤ 1) :=
  basic_twice_cached sX 1


/-! ### C5: the storage short-circuit for known storage -/

/-- C5 counterexample to the claim as stated: a loaded account with
`is_storage_known` true but no plain data (here `LoadedNotExisting`)
returns ZERO without touching the database, but caches nothing — there is
no storage map to cache into (state.rs line 263: the `account.as_mut()`
is `None` and `unwrap_or_default` produces ZERO). -/
theorem storage_known_missing_plain_cex :
    AccountStatus.LoadedNotExisting.is_storage_known = true ∧
    sLNE.storage 1 9 = TrapOr.res (.ok 0, sLNE, 0) ∧
    cachedSlot sLNE 1 9 = none := by
  exact ⟨rfl, rfl, rfl⟩

/-- C5 amended: for a loaded account whose status has `is_storage_known`
true, `storage(addr, k)` never invokes the database's storage operation: it
returns the cached slot if present and ZERO otherwise, caching the ZERO when
the account has plain data (an account without plain data returns ZERO but
has no storage map to cache into).  The result does not depend on the
database at all. -/
theorem storage_short_circuit {E : Type} (s : State E) (a k : Nat)
    (ca : CacheAccount) (hca : s.cache.accounts a = some ca)
    (hk : ca.status.is_storage_known = true) :
    ∃ v s2, s.storage a k = .res (.ok v, s2, 0) ∧
      v = (cachedSlot s a k).getD 0 ∧
      (∀ pa, ca.account = some pa → cachedSlot s2 a k = some v) ∧
      (∀ db2 : DB E, ∃ s3,
        State.storage { s with database := db2 } a k = .res (.ok v, s3, 0)) := by
  cases hpa : ca.account with
  | none =>
    refine ⟨0, s, ?_, ?_, ?_, ?_⟩
    · unfold State.storage; simp [hca, hpa]
    · simp [cachedSlot, hca, hpa]
    · intro pa hpa2; simp at hpa2
    · intro db2
      refine ⟨{ s with database := db2 }, ?_⟩
      unfold State.storage
      simp [hca, hpa]
  | some pa =>
    cases hsl : pa.storage k with
    | some v =>
      refine ⟨v, s, ?_, ?_, ?_, ?_⟩
      · unfold State.storage; simp [hca, hpa, hsl]
      · simp [cachedSlot, hca, hpa, hsl]
      · intro pa2 hpa2
        injection hpa2 with h3
        subst h3
        simp [cachedSlot, hca, hpa, hsl]
      · intro db2
        refine ⟨{ s with database := db2 }, ?_⟩
        unfold State.storage
        simp [hca, hpa, hsl]
    | none =>
      refine ⟨0, insertCacheAccount s a
          (CacheAccount.mk
            (some (PlainAccount.mk pa.info
              (fun x => if x = k then some 0 else pa.storage x)))
            ca.status), ?_, ?_, ?_, ?_⟩
      · unfold State.storage; simp [hca, hpa, hsl, hk]
      · simp [cachedSlot, hca, hpa, hsl]
      · intro pa2 hpa2
        injection hpa2 with h3
        subst h3
        simp [cachedSlot, insertCacheAccount]
      · intro db2
        refine ⟨insertCacheAccount { s with database := db2 } a
            (CacheAccount.mk
              (some (PlainAccount.mk pa.info
                (fun x => if x = k then some 0 else pa.storage x)))
              ca.status), ?_⟩
        unfold State.storage
        simp [hca, hpa, hsl, hk]

/-- Witness for the amended storage short-circuit at a concrete account with
known storage. -/
theorem storage_short_circuit_witness :
    ∃ v s2, sLNE.storage 1 9 = .res (.ok v, s2, 0) ∧
      v = (cachedSlot sLNE 1 9).getD 0 ∧
      (∀ pa, CacheAccount.new_loaded_not_existing.account = some pa →
        cachedSlot s2 1 9 = some v) ∧
      (∀ db2 : DB Nat, ∃ s3,
        State.storage { sLNE with database := db2 } 1 9 = .res (.ok v, s3, 0)) :=
  storage_short_circuit sLNE 1 9 CacheAccount.new_loaded_not_existing rfl rfl

/-! ### C6: storage on an unloaded address traps -/

/-- C6: calling `storage(addr, key)` for an address that was never loaded
into the cache hits the `unreachable!` trap (state.rs line 285); whenever
the account is loaded, the trap branch is unreachable and a value or
database error is produced. -/
theorem storage_requires_loaded_account {E : Type} (s : State E) (a k : Nat) :
    (s.cache.accounts a = none → s.storage a k = TrapOr.trap) ∧
    (∀ ca, s.cache.accounts a = some ca → s.storage a k ≠ TrapOr.trap) := by
  constructor
  · intro h; unfold State.storage; rw [h]
  · intro ca h
    unfold State.storage
    cases hpa : ca.account with
    | none => simp [h, hpa]
    | some pa =>
      cases hsl : pa.storage k with
      | some v => simp [h, hpa, hsl]
      | none =>
        by_cases hk : ca.status.is_storage_known
        · simp [h, hpa, hsl, hk]
        · cases hdb : s.database.storage a k with
          | error e => simp [h, hpa, hsl, hk, hdb]
          | ok v => simp [h, hpa, hsl, hk, hdb]

/-- Witness: a fresh state traps on address 1, a state with address 1 loaded
does not. -/
theorem storage_requires_loaded_account_witness :
    sTest.storage 1 9 = TrapOr.trap ∧ sLNE.storage 1 9 ≠ TrapOr.trap :=
  ⟨(storage_requires_loaded_account sTest 1 9).1 rfl,
   (storage_requires_loaded_account sLNE 1 9).2
     CacheAccount.new_loaded_not_existing rfl⟩

/-! ### C8: a database error leaves the cache untouched -/

/-- C8: when the database's `basic` fails with error `e` for an address that
is not cached (and not in the preloaded bundle when that is enabled), the
load propagates exactly `e` and returns the state unchanged — in particular
no cache entry is written for that address (state.rs line 199: the `?`
returns before `entry.insert` runs). -/
theorem load_db_error_leaves_cache {E : Type} (s : State E) (a : Nat) (e : E)
    (hmiss : s.cache.accounts a = none)
    (hbundle : s.use_preloaded_bundle = true → s.bundle_state.account a = none)
    (hdb : s.database.basic a = .error e) :
    s.load_cache_account a = (.error e, s, 1) ∧
    s.basic a = (.error e, s, 1) := by
  have hpre : (if s.use_preloaded_bundle then s.bundle_state.account a else none) = none := by
    cases hb : s.use_preloaded_bundle
    · simp [hb]
    · simp [hb, hbundle hb]
  have h1 : s.load_cache_account a = (.error e, s, 1) := by
    rw [load_miss s a hmiss hpre, hdb]
  refine ⟨h1, ?_⟩
  unfold State.basic
  rw [h1]

/-- Witness: the always-failing database propagates error 7 and leaves the
fresh state untouched. -/
theorem load_db_error_leaves_cache_witness :
    sErr.load_cache_account 5 = (.error 7, sErr, 1) ∧
    sErr.basic 5 = (.error 7, sErr, 1) :=
  load_db_error_leaves_cache sErr 5 7 rfl (fun h => Bool.noConfusion h) rfl

/-! ### C9: the read-only operations do not mutate the state -/

/-- C9: the four `DatabaseRef` operations (`basic_ref`, `code_by_hash_ref`,
`storage_ref`, `block_hash_ref`, state.rs lines 318-381) leave the entire
`State` unchanged on every input, including cache misses that fall through
to the database: their Rust receivers are `&self`, and the state-passing
translation returns the state unchanged in every branch. -/
theorem read_only_ops_preserve_state {E : Type} (s : State E) (a h k n : Nat) :
    (s.basic_ref a).2 = s ∧ (s.code_by_hash_ref h).2 = s ∧
    (s.storage_ref a k).2 = s ∧ (s.block_hash_ref n).2 = s := by
  refine ⟨?_, ?_, ?_, ?_⟩
  · unfold State.basic_ref
    repeat' split
    all_goals rfl
  · unfold State.code_by_hash_ref
    repeat' split
    all_goals rfl
  · unfold State.storage_ref
    repeat' split
    all_goals rfl
  · unfold State.block_hash_ref
    repeat' split
    all_goals rfl

/-! ### C7: increment_balances -/

theorem effBalance_insert_self {E : Type} (s : State E) (a : Nat) (ca : CacheAccount) :
    effBalance (insertCacheAccount s a ca) a = ballOf ca := by
  unfold effBalance
  rw [insertCacheAccount_accounts_self]

theorem effBalance_insert_other {E : Type} (s : State E) (a b : Nat)
    (ca : CacheAccount) (h : ¬ b = a) :
    effBalance (insertCacheAccount s a ca) b = effBalance s b := by
  unfold effBalance
  rw [insertCacheAccount_accounts_other s a b ca h]
  rfl

theorem incrementBalance_eff (ca : CacheAccount) (amt : Nat) :
    ballOf (ca.incrementBalance amt).1 = ballOf ca + amt := by
  unfold CacheAccount.incrementBalance ballOf CacheAccount.account_info
  cases hpa : ca.account with
  | none => simp [hpa]
  | some pa => simp [hpa]

theorem load_eff {E : Type} (s : State E) (a : Nat)
    (hdb : (s.database.basic a).isOk = true) :
    ∃ ca s' n, s.load_cache_account a = (.ok ca, s', n) ∧
      ballOf ca = effBalance s a ∧
      (∀ b, effBalance s' b = effBalance s b) ∧
      s'.cache.accounts a = some ca ∧
      s'.database = s.database ∧
      s'.transition_state = s.transition_state := by
  cases hc : s.cache.accounts a with
  | some ca =>
    refine ⟨ca, s, 0, load_hit s a ca hc, ?_, fun b => rfl, hc, rfl, rfl⟩
    simp [effBalance, hc]
  | none =>
    cases hp : (if s.use_preloaded_bundle then s.bundle_state.account a else none) with
    | some b0 =>
      refine ⟨b0.intoCacheAccount, _, 0, load_miss_bundle s a b0 hc hp, ?_, ?_,
        insertCacheAccount_accounts_self s a _, rfl, rfl⟩
      · simp [effBalance, hc, hp]
      · intro b
        by_cases hba : b = a
        · subst hba
          rw [effBalance_insert_self]
          simp [effBalance, hc, hp]
        · exact effBalance_insert_other s a b _ hba
    | none =>
      have hlm := load_miss s a hc hp
      cases hd : s.database.basic a with
      | error e => rw [hd] at hdb; exact Bool.noConfusion hdb
      | ok oi =>
        cases oi with
        | none =>
          refine ⟨CacheAccount.new_loaded_not_existing, _, 1, by rw [hlm, hd], ?_, ?_,
            insertCacheAccount_accounts_self s a _, rfl, rfl⟩
          · simp [effBalance, hc, hp, hd, ballOf, CacheAccount.new_loaded_not_existing]
          · intro b
            by_cases hba : b = a
            · subst hba
              rw [effBalance_insert_self]
              simp [effBalance, hc, hp, hd, ballOf, CacheAccount.new_loaded_not_existing]
            · exact effBalance_insert_other s a b _ hba
        | some i =>
          by_cases he : i.is_empty
          · have hbal : i.balance = 0 := by
              unfold AccountInfo.is_empty at he
              simp [Bool.and_eq_true] at he
              exact he.1.1
            refine ⟨CacheAccount.new_loaded_empty_eip161 (fun _ => none), _, 1,
              by rw [hlm, hd]; simp [he], ?_, ?_,
              insertCacheAccount_accounts_self s a _, rfl, rfl⟩
            · simp [effBalance, hc, hp, hd, ballOf,
                CacheAccount.new_loaded_empty_eip161, AccountInfo.emptyInfo, hbal]
            · intro b
              by_cases hba : b = a
              · subst hba
                rw [effBalance_insert_self]
                simp [effBalance, hc, hp, hd, ballOf,
                  CacheAccount.new_loaded_empty_eip161, AccountInfo.emptyInfo, hbal]
              · exact effBalance_insert_other s a b _ hba
          · refine ⟨CacheAccount.new_loaded i (fun _ => none), _, 1,
              by rw [hlm, hd]; simp [he], ?_, ?_,
              insertCacheAccount_accounts_self s a _, rfl, rfl⟩
            · simp [effBalance, hc, hp, hd, ballOf, CacheAccount.new_loaded]
            · intro b
              by_cases hba : b = a
              · subst hba
                rw [effBalance_insert_self]
                simp [effBalance, hc, hp, hd, ballOf, CacheAccount.new_loaded]
              · exact effBalance_insert_other s a b _ hba

theorem sumForAddr_cons (b a amt : Nat) (rest : List (Nat × Nat)) :
    sumForAddr b ((a, amt) :: rest) =
      (if a = b then amt else 0) + sumForAddr b rest := by
  unfold sumForAddr
  rw [List.filter_cons]
  by_cases hab : a = b
  · simp [hab]
  · simp [hab, beq_eq_false_iff_ne.mpr hab]

theorem incBalGo_spec {E : Type} :
    ∀ (l : List (Nat × Nat)) (s : State E),
      (∀ x, (s.database.basic x).isOk = true) →
      (s.incBalGo l).1 = .ok () ∧
      ((s.incBalGo l).2.1).map (·.1) = (l.filter (fun p => p.2 != 0)).map (·.1) ∧
      (∀ b, effBalance (s.incBalGo l).2.2 b = effBalance s b + sumForAddr b l) ∧
      (s.incBalGo l).2.2.database = s.database ∧
      (s.incBalGo l).2.2.transition_state = s.transition_state := by
  intro l
  induction l with
  | nil =>
    intro s h
    refine ⟨rfl, rfl, ?_, rfl, rfl⟩
    intro b
    simp [State.incBalGo, sumForAddr]
  | cons p rest ih =>
    intro s h
    obtain ⟨a, amt⟩ := p
    by_cases hz : amt = 0
    · subst hz
      have hred : s.incBalGo ((a, 0) :: rest) = s.incBalGo rest := by
        rfl
      obtain ⟨h1, h2, h3, h4, h5⟩ := ih s h
      rw [hred]
      refine ⟨h1, ?_, ?_, h4, h5⟩
      · rw [h2]
        simp [List.filter_cons]
      · intro b
        rw [h3 b, sumForAddr_cons]
        simp
    · obtain ⟨ca, s', n, heq, hbal, heffp, hacc', hdb', hts'⟩ := load_eff s a (h a)
      have hred : s.incBalGo ((a, amt) :: rest) =
          (((insertCacheAccount s' a (ca.incrementBalance amt).1).incBalGo rest).1,
           (a, (ca.incrementBalance amt).2) ::
             ((insertCacheAccount s' a (ca.incrementBalance amt).1).incBalGo rest).2.1,
           ((insertCacheAccount s' a (ca.incrementBalance amt).1).incBalGo rest).2.2) := by
        conv_lhs => rw [State.incBalGo]
        rw [if_neg hz, heq]
      have hdb'' : ∀ x, (((insertCacheAccount s' a (ca.incrementBalance amt).1)).database.basic x).isOk = true := by
        intro x
        have hsame : ((insertCacheAccount s' a (ca.incrementBalance amt).1)).database = s.database := by
          rw [show ((insertCacheAccount s' a (ca.incrementBalance amt).1)).database = s'.database from rfl, hdb']
        rw [hsame]
        exact h x
      obtain ⟨h1, h2, h3, h4, h5⟩ := ih (insertCacheAccount s' a (ca.incrementBalance amt).1) hdb''
      rw [hred]
      refine ⟨h1, ?_, ?_, ?_, ?_⟩
      · show a :: ((insertCacheAccount s' a (ca.incrementBalance amt).1).incBalGo rest).2.1.map (·.1) =
          ((a, amt) :: rest |>.filter (fun p => p.2 != 0)).map (·.1)
        rw [h2, List.filter_cons]
        simp [hz]
      · intro b
        rw [h3 b, sumForAddr_cons]
        by_cases hba : b = a
        · subst hba
          rw [effBalance_insert_self, incrementBalance_eff, hbal]
          simp
          omega
        · rw [effBalance_insert_other s' a b _ hba, heffp b]
          have : ¬ a = b := fun hh => hba hh.symm
          simp [this]
      · rw [h4]
        rw [show ((insertCacheAccount s' a (ca.incrementBalance amt).1)).database = s'.database from rfl, hdb']
      · rw [h5]
        rw [show ((insertCacheAccount s' a (ca.incrementBalance amt).1)).transition_state = s'.transition_state from rfl, hts']

theorem effBalance_ts {E : Type} (s : State E) (x : Option TransitionState) (b : Nat) :
    effBalance { s with transition_state := x } b = effBalance s b := rfl

theorem incBalGo_filter {E : Type} :
    ∀ (l : List (Nat × Nat)) (s : State E),
      s.incBalGo l = s.incBalGo (l.filter (fun p => p.2 != 0)) := by
  intro l
  induction l with
  | nil => intro s; rfl
  | cons p rest ih =>
    intro s
    obtain ⟨a, amt⟩ := p
    by_cases hz : amt = 0
    · subst hz
      have h1 : s.incBalGo ((a, 0) :: rest) = s.incBalGo rest := rfl
      rw [h1, ih, List.filter_cons]
      simp
    · have hne : (amt != 0) = true := by simpa using hz
      rw [List.filter_cons]
      simp only [hne, if_true]
      rcases hl : s.load_cache_account a with ⟨r, s', n⟩
      cases r with
      | error e =>
        conv_lhs => rw [State.incBalGo]
        conv_rhs => rw [State.incBalGo]
        rw [if_neg hz, if_neg hz, hl]
      | ok ca =>
        conv_lhs => rw [State.incBalGo]
        conv_rhs => rw [State.incBalGo]
        rw [if_neg hz, if_neg hz, hl]
        simp only []
        rw [ih]

/-- C7: `increment_balances` skips every zero-amount pair entirely (the run
equals the run on the zero-free input, so no load and no transition happens
for them); on an error-free database it succeeds, emits exactly one
transition per non-zero entry (in input order, with the entry's address),
and adds to every account's observable balance the sum of its non-zero
amounts. -/
theorem increment_balances_spec {E : Type} (s : State E) (l : List (Nat × Nat))
    (hdb : ∀ x, (s.database.basic x).isOk = true) :
    s.incrementBalances l = s.incrementBalances (l.filter (fun p => p.2 != 0)) ∧
    (s.incrementBalances l).1 = .ok () ∧
    ((s.incBalGo l).2.1).map (·.1) = (l.filter (fun p => p.2 != 0)).map (·.1) ∧
    ((s.incBalGo l).2.1).length = (l.filter (fun p => p.2 != 0)).length ∧
    (∀ a, effBalance (s.incrementBalances l).2 a =
      effBalance s a + sumForAddr a l) := by
  have hgo := incBalGo_spec l s hdb
  obtain ⟨h1, h2, h3, h4, h5⟩ := hgo
  refine ⟨?_, ?_, h2, ?_, ?_⟩
  · unfold State.incrementBalances
    rw [incBalGo_filter l s]
  · simp only [State.incrementBalances, h1]
    cases h6 : (s.incBalGo l).2.2.transition_state <;> simp [h6]
  · have := congrArg List.length h2
    simpa using this
  · intro a
    simp only [State.incrementBalances, h1]
    cases h6 : (s.incBalGo l).2.2.transition_state with
    | none => simpa [h6] using h3 a
    | some ts =>
      simp only [h6]
      rw [effBalance_ts]
      exact h3 a

/-- Witness: the S5-style input over a fresh state (database without
accounts): one zero entry skipped, two non-zero entries processed. -/
theorem increment_balances_spec_witness :
    sTest.incrementBalances [(1, 0), (1, 10), (2, 3)] =
      sTest.incrementBalances ([(1, 0), (1, 10), (2, 3)].filter (fun p => p.2 != 0)) ∧
    (sTest.incrementBalances [(1, 0), (1, 10), (2, 3)]).1 = .ok () ∧
    ((sTest.incBalGo [(1, 0), (1, 10), (2, 3)]).2.1).map (·.1) =
      ([(1, 0), (1, 10), (2, 3)].filter (fun p => p.2 != 0)).map (·.1) ∧
    ((sTest.incBalGo [(1, 0), (1, 10), (2, 3)]).2.1).length =
      ([(1, 0), (1, 10), (2, 3)].filter (fun p => p.2 != 0)).length ∧
    (∀ a, effBalance (sTest.incrementBalances [(1, 0), (1, 10), (2, 3)]).2 a =
      effBalance sTest a + sumForAddr a [(1, 0), (1, 10), (2, 3)]) :=
  increment_balances_spec sTest [(1, 0), (1, 10), (2, 3)] (fun _ => rfl)

/-! ### C10: a state without the transitions buffer -/

theorem load_setTS {E : Type} (s : State E) (x : Option TransitionState) (a : Nat) :
    (setTS s x).load_cache_account a =
      ((s.load_cache_account a).1, setTS (s.load_cache_account a).2.1 x,
       (s.load_cache_account a).2.2) := by
  unfold State.load_cache_account
  cases hc : s.cache.accounts a with
  | some ca => simp [setTS, hc]
  | none =>
    cases hp : (if s.use_preloaded_bundle then s.bundle_state.account a else none) with
    | some b => simp [setTS, hc, hp, insertCacheAccount]
    | none =>
      cases hd : s.database.basic a with
      | error e => simp [setTS, hc, hp, hd]
      | ok oi =>
        cases oi with
        | none => simp [setTS, hc, hp, hd, insertCacheAccount]
        | some i =>
          by_cases he : i.is_empty <;>
            simp [setTS, hc, hp, hd, he, insertCacheAccount]

theorem incBalGo_setTS {E : Type} :
    ∀ (l : List (Nat × Nat)) (s : State E) (x : Option TransitionState),
      (setTS s x).incBalGo l =
        ((s.incBalGo l).1, (s.incBalGo l).2.1, setTS (s.incBalGo l).2.2 x) := by
  intro l
  induction l with
  | nil => intro s x; rfl
  | cons p rest ih =>
    intro s x
    obtain ⟨a, amt⟩ := p
    by_cases hz : amt = 0
    · subst hz
      have e1 : (setTS s x).incBalGo ((a, 0) :: rest) = (setTS s x).incBalGo rest := rfl
      have e2 : s.incBalGo ((a, 0) :: rest) = s.incBalGo rest := rfl
      rw [e1, e2]
      exact ih s x
    · rcases hl : s.load_cache_account a with ⟨r, s', n⟩
      have hl2 : (setTS s x).load_cache_account a = (r, setTS s' x, n) := by
        rw [load_setTS, hl]
      cases r with
      | error e =>
        have e2 : s.incBalGo ((a, amt) :: rest) = (.error e, [], s') := by
          conv_lhs => rw [State.incBalGo]
          rw [if_neg hz, hl]
        have e1 : (setTS s x).incBalGo ((a, amt) :: rest) = (.error e, [], setTS s' x) := by
          conv_lhs => rw [State.incBalGo]
          rw [if_neg hz, hl2]
        rw [e1, e2]
      | ok ca =>
        have e2 : s.incBalGo ((a, amt) :: rest) =
            (((insertCacheAccount s' a (ca.incrementBalance amt).1).incBalGo rest).1,
             (a, (ca.incrementBalance amt).2) ::
               ((insertCacheAccount s' a (ca.incrementBalance amt).1).incBalGo rest).2.1,
             ((insertCacheAccount s' a (ca.incrementBalance amt).1).incBalGo rest).2.2) := by
          conv_lhs => rw [State.incBalGo]
          rw [if_neg hz, hl]
        have e1 : (setTS s x).incBalGo ((a, amt) :: rest) =
            (((insertCacheAccount (setTS s' x) a (ca.incrementBalance amt).1).incBalGo rest).1,
             (a, (ca.incrementBalance amt).2) ::
               ((insertCacheAccount (setTS s' x) a (ca.incrementBalance amt).1).incBalGo rest).2.1,
             ((insertCacheAccount (setTS s' x) a (ca.incrementBalance amt).1).incBalGo rest).2.2) := by
          conv_lhs => rw [State.incBalGo]
          rw [if_neg hz, hl2]
        have hins : insertCacheAccount (setTS s' x) a (ca.incrementBalance amt).1 =
            setTS (insertCacheAccount s' a (ca.incrementBalance amt).1) x := rfl
        rw [e1, e2, hins, ih (insertCacheAccount s' a (ca.incrementBalance amt).1) x]

theorem drainGo_setTS {E : Type} :
    ∀ (l : List Nat) (s : State E) (x : Option TransitionState),
      (setTS s x).drainGo l =
        ((s.drainGo l).1, (s.drainGo l).2.1, (s.drainGo l).2.2.1,
         setTS (s.drainGo l).2.2.2 x) := by
  intro l
  induction l with
  | nil => intro s x; rfl
  | cons a rest ih =>
    intro s x
    rcases hl : s.load_cache_account a with ⟨r, s', n⟩
    have hl2 : (setTS s x).load_cache_account a = (r, setTS s' x, n) := by
      rw [load_setTS, hl]
    cases r with
    | error e =>
      have e2 : s.drainGo (a :: rest) = (.error e, [], [], s') := by
        conv_lhs => rw [State.drainGo]
        rw [hl]
      have e1 : (setTS s x).drainGo (a :: rest) = (.error e, [], [], setTS s' x) := by
        conv_lhs => rw [State.drainGo]
        rw [hl2]
      rw [e1, e2]
    | ok ca =>
      have e2 : s.drainGo (a :: rest) =
          (((insertCacheAccount s' a ca.drainBalance.2.1).drainGo rest).1,
           ca.drainBalance.1 ::
             ((insertCacheAccount s' a ca.drainBalance.2.1).drainGo rest).2.1,
           (a, ca.drainBalance.2.2) ::
             ((insertCacheAccount s' a ca.drainBalance.2.1).drainGo rest).2.2.1,
           ((insertCacheAccount s' a ca.drainBalance.2.1).drainGo rest).2.2.2) := by
        conv_lhs => rw [State.drainGo]
        rw [hl]
      have e1 : (setTS s x).drainGo (a :: rest) =
          (((insertCacheAccount (setTS s' x) a ca.drainBalance.2.1).drainGo rest).1,
           ca.drainBalance.1 ::
             ((insertCacheAccount (setTS s' x) a ca.drainBalance.2.1).drainGo rest).2.1,
           (a, ca.drainBalance.2.2) ::
             ((insertCacheAccount (setTS s' x) a ca.drainBalance.2.1).drainGo rest).2.2.1,
           ((insertCacheAccount (setTS s' x) a ca.drainBalance.2.1).drainGo rest).2.2.2) := by
        conv_lhs => rw [State.drainGo]
        rw [hl2]
      have hins : insertCacheAccount (setTS s' x) a ca.drainBalance.2.1 =
          setTS (insertCacheAccount s' a ca.drainBalance.2.1) x := rfl
      rw [e1, e2, hins, ih (insertCacheAccount s' a ca.drainBalance.2.1) x]

theorem applyTransition_none {E : Type} (u : State E)
    (l : List (Nat × TransitionAccount)) (h : u.transition_state = none) :
    u.applyTransition l = u := by
  unfold State.applyTransition
  rw [h]

theorem incrementBalances_buffer_agnostic {E : Type} (u : State E)
    (l : List (Nat × Nat)) (ts : TransitionState) :
    ((setTS u none).incrementBalances l).1 =
      ((setTS u (some ts)).incrementBalances l).1 ∧
    ((setTS u none).incrementBalances l).2 =
      setTS ((setTS u (some ts)).incrementBalances l).2 none := by
  unfold State.incrementBalances
  rw [incBalGo_setTS l u none, incBalGo_setTS l u (some ts)]
  cases hr : (u.incBalGo l).1 with
  | error e => exact ⟨rfl, rfl⟩
  | ok v => exact ⟨rfl, rfl⟩

theorem drainBalances_buffer_agnostic {E : Type} (u : State E)
    (l : List Nat) (ts : TransitionState) :
    ((setTS u none).drainBalances l).1 =
      ((setTS u (some ts)).drainBalances l).1 ∧
    ((setTS u none).drainBalances l).2 =
      setTS ((setTS u (some ts)).drainBalances l).2 none := by
  unfold State.drainBalances
  rw [drainGo_setTS l u none, drainGo_setTS l u (some ts)]
  cases hr : (u.drainGo l).1 with
  | error e => exact ⟨rfl, rfl⟩
  | ok v => exact ⟨rfl, rfl⟩

/-- C10: on a state built without the transitions buffer
(`transition_state = None`), `apply_transition` and `merge_transitions` are
complete no-ops (in particular the bundle is untouched for every retention
mode), `commit` still folds the VM state into the cache while recording no
transitions, and `increment_balances`/`drain_balances` return the same
results and perform the same cache updates as they would with a buffer
present — the only difference being that nothing is recorded. -/
theorem no_transition_buffer_frame {E : Type} (s : State E)
    (h : s.transition_state = none) :
    (∀ l, s.applyTransition l = s) ∧
    (∀ r, s.mergeTransitions r = s) ∧
    (∀ evm, s.commit evm = { s with cache := (s.cache.applyEvmState evm).1 }) ∧
    (∀ l ts, (s.incrementBalances l).1 =
        ((setTS s (some ts)).incrementBalances l).1 ∧
      (s.incrementBalances l).2 =
        setTS ((setTS s (some ts)).incrementBalances l).2 none) ∧
    (∀ al ts, (s.drainBalances al).1 =
        ((setTS s (some ts)).drainBalances al).1 ∧
      (s.drainBalances al).2 =
        setTS ((setTS s (some ts)).drainBalances al).2 none) := by
  have hs : setTS s none = s := by
    cases s
    simp only [setTS] at h ⊢
    simp [h]
  refine ⟨?_, ?_, ?_, ?_, ?_⟩
  · intro l
    exact applyTransition_none s l h
  · intro r
    unfold State.mergeTransitions
    rw [h]
  · intro evm
    simp only [State.commit]
    exact applyTransition_none _ _ h
  · intro l ts
    have := incrementBalances_buffer_agnostic s l ts
    rw [hs] at this
    exact this
  · intro al ts
    have := drainBalances_buffer_agnostic s al ts
    rw [hs] at this
    exact this

/-- Witness: a concrete bufferless state over `dbX`. -/
theorem no_transition_buffer_frame_witness :
    (∀ l, sNoBuf.applyTransition l = sNoBuf) ∧
    (∀ r, sNoBuf.mergeTransitions r = sNoBuf) ∧
    (∀ evm, sNoBuf.commit evm =
      { sNoBuf with cache := (sNoBuf.cache.applyEvmState evm).1 }) ∧
    (∀ l ts, (sNoBuf.incrementBalances l).1 =
        ((setTS sNoBuf (some ts)).incrementBalances l).1 ∧
      (sNoBuf.incrementBalances l).2 =
        setTS ((setTS sNoBuf (some ts)).incrementBalances l).2 none) ∧
    (∀ al ts, (sNoBuf.drainBalances al).1 =
        ((setTS sNoBuf (some ts)).drainBalances al).1 ∧
      (sNoBuf.drainBalances al).2 =
        setTS ((setTS sNoBuf (some ts)).drainBalances al).2 none) :=
  no_transition_buffer_frame sNoBuf rfl

/-! ### Validation: the spec-modelled merge reproduces the unit tests that
ship inside `state.rs` -/

/-- The `reverts_preserve_old_values` test: the created account reverts with
`DeleteIt` and slot 1 to ZERO; the existing account reverts to its initial
info with the block-start slot originals preserved across transactions. -/
theorem model_matches_reverts_preserve_old_values :
    (runBlock dbTest testPreserveCalls).bundle_state.reverts =
      [[(1, { account := .DeleteIt, previous_status := .LoadedNotExisting,
              storage := [(1, .Some 0)], wipe_storage := false }),
        (2, { account := .RevertTo infoB1, previous_status := .Loaded,
              storage := [(1, .Some 100), (2, .Some 200), (3, .Some 0)],
              wipe_storage := false })]] ∧
    (runBlock dbTest testPreserveCalls).bundle_state.state 1 =
      some { info := some infoA3, original_info := none,
             storage := [(1, ⟨0, 1⟩)], status := .InMemoryChange } ∧
    (runBlock dbTest testPreserveCalls).bundle_state.state 2 =
      some { info := some infoB2, original_info := some infoB1,
             storage := [(1, ⟨100, 1000⟩), (2, ⟨200, 2000⟩), (3, ⟨0, 3000⟩)],
             status := .InMemoryChange } := by
  refine ⟨by decide, by decide, by decide⟩

/-- The `bundle_scoped_reverts_collapse` test: a block whose every touched
account ends where it started produces one empty revert set. -/
theorem model_matches_bundle_scoped_reverts_collapse :
    (runBlock dbTest testCollapseCalls).bundle_state.reverts = [[]] := by
  decide

/-- The `selfdestruct_state_and_reverts` test: only the slot written after
the last destruction survives in the bundle, and the revert records
`DoNothing` with `wipe_storage` and the surviving slot marked `Destroyed`. -/
theorem model_matches_selfdestruct_state_and_reverts :
    (runBlock dbTest testSelfdestructCalls).bundle_state.state 1 =
      some { info := some infoB1, original_info := some infoB1,
             storage := [(2, ⟨0, 2⟩)], status := .DestroyedChanged } ∧
    (runBlock dbTest testSelfdestructCalls).bundle_state.reverts =
      [[(1, { account := .DoNothing, previous_status := .Loaded,
              storage := [(2, .Destroyed)], wipe_storage := true })]] := by
  refine ⟨by decide, by decide⟩
